import Mathlib

/-!
Verification of the geometry vectorization and normalization core of the
geometry-learning repository, together with the experiment scripts that
consume it (`src/model/vectorize.py`, `src/model/building_type.py`,
`src/model/archaeology_convnet.py`, `src/model/neighborhood_inhabitants.py`).

The `topoml_util` package (`GeoVectorizer`, `geom_scaler`) is imported by the
scripts but its source is not part of the checked tree; those two modules are
modelled from the specification (each such definition carries a doc comment
starting with `Modelled from the spec:`).  All script-level definitions are
translated directly from the Python sources.

Numeric values are represented by rationals; floating-point rounding is not
modelled.  The square root used by the scaler is exact on the perfect-square
rationals at which it is evaluated in this development.
-/

namespace GeometryLearning

/-- Modelled from the spec: the fixed feature layout of a vectorized point
(`topoml_util.GeoVectorizer` exports `GEO_VECTOR_LEN`, `RENDER_INDEX`,
`STOP_INDEX`, `FULL_STOP_INDEX`; the module itself is not in the checked
tree).  Layout: x, y coordinate channels, then the render, stop and
full-stop flag bits. -/
def GEO_VECTOR_LEN : Nat := 5

/-- Modelled from the spec: channel index of the render flag. -/
def RENDER_INDEX : Nat := 2

/-- Modelled from the spec: channel index of the stop flag. -/
def STOP_INDEX : Nat := 3

/-- Modelled from the spec: channel index of the full-stop flag. -/
def FULL_STOP_INDEX : Nat := 4

/-- A feature vector: one row of the vectorized tensor. -/
abbrev Vec := List ℚ

/-- A sub-part of a geometry (ring / segment): an ordered list of 2D points. -/
abbrev Part := List (ℚ × ℚ)

/-- Modelled from the spec: a parsed WKT geometry, reduced to its ordered
list of sub-parts; the WKT keyword only determines how parts are delimited,
which the encoder does not consult. -/
structure Geom where
  parts : List Part
deriving DecidableEq

/-- Modelled from the spec: one raw WKT text cell.  `geoms` is the parse
result (a `;`-joined text parses to the sequence of its constituent
geometries, handled like a geometry collection), `raw` the raw text whose
length the corpus-preparation step checks. -/
structure Wkt where
  geoms : List Geom
  raw : String
deriving DecidableEq

/-- x coordinate channel of a feature vector. -/
def coordX (v : Vec) : ℚ := v.getD 0 0

/-- y coordinate channel of a feature vector. -/
def coordY (v : Vec) : ℚ := v.getD 1 0

/-- render flag channel of a feature vector. -/
def renderFlag (v : Vec) : ℚ := v.getD RENDER_INDEX 0

/-- stop flag channel of a feature vector. -/
def stopFlag (v : Vec) : ℚ := v.getD STOP_INDEX 0

/-- full-stop flag channel of a feature vector. -/
def fullStopFlag (v : Vec) : ℚ := v.getD FULL_STOP_INDEX 0

/-- A vector is a real (non-padding) entry iff its render flag is set. -/
def isReal (v : Vec) : Bool := renderFlag v != 0

/-- An all-zero padding row. -/
def padVec : Vec := List.replicate GEO_VECTOR_LEN 0

/-- A batch: a list of records, each a list of feature vectors. -/
abbrev Batch := List (List Vec)

/-- Number of feature vectors whose full-stop flag is set. -/
def countFS (l : List Vec) : Nat := l.countP (fun v => decide (fullStopFlag v = 1))

namespace GeoVectorizer

/-- Modelled from the spec: encoding of one coordinate point — coordinates in
the first channels, render flag 1, followed by the stop and full-stop bits. -/
def encodePoint (p : ℚ × ℚ) (s f : ℚ) : Vec := [p.1, p.2, 1, s, f]

/-- Modelled from the spec: encode one sub-part; every point renders, the last
point of the part carries stop = 1 when the part is not the final one, and
full-stop = 1 when it is. -/
def encodePart : Part → Bool → List Vec
  | [], _ => []
  | [p], isFinal =>
      [encodePoint p (if isFinal then 0 else 1) (if isFinal then 1 else 0)]
  | p :: q :: rest, isFinal => encodePoint p 0 0 :: encodePart (q :: rest) isFinal

/-- Modelled from the spec: flatten all sub-parts into one ordered sequence of
feature vectors; each internal part boundary gets a stop bit, the true last
point gets the full-stop bit. -/
def encodeParts : List Part → List Vec
  | [] => []
  | [part] => encodePart part true
  | part :: rest => encodePart part false ++ encodeParts rest

/-- The flattened sub-part list of a WKT cell. -/
def Wkt.allParts (w : Wkt) : List Part := (w.geoms.map Geom.parts).flatten

/-- Real coordinate point count of a WKT cell. -/
def Wkt.pointCount (w : Wkt) : Nat := ((Wkt.allParts w).map List.length).sum

/-- Modelled from the spec: core of `vectorize_wkt` — emit one feature vector
per point and pad with all-zero rows up to `maxPts`; `none` models the
`LengthExceededError` raised when the real point count exceeds `maxPts`. -/
def vectorizeParts (ps : List Part) (maxPts : Nat) : Option (List Vec) :=
  if (ps.map List.length).sum ≤ maxPts then
    some (encodeParts ps
      ++ List.replicate (maxPts - (ps.map List.length).sum) padVec)
  else none

/-- Modelled from the spec: `GeoVectorizer.vectorize_wkt(wkt, max_points)`.
A `;`-joined text is treated as the sequence of its constituent geometries. -/
def vectorize_wkt (w : Wkt) (maxPts : Nat) : Option (List Vec) :=
  vectorizeParts (Wkt.allParts w) maxPts

/-- Modelled from the spec: `GeoVectorizer.vectorize_two_wkts(wkt1, wkt2,
max_points)` — the two geometries are vectorized into one fixed-length record;
the boundary between them carries a stop (not full-stop) bit and the true end
of the second geometry the full-stop bit.  `none` models the length error when
the combined point count does not fit. -/
def vectorize_two_wkts (a b : Wkt) (maxPts : Nat) : Option (List Vec) :=
  vectorizeParts (Wkt.allParts a ++ Wkt.allParts b) maxPts

/-- Joining two WKT text cells with `';'`, as the scripts do on raw text. -/
def joinWkt (a b : Wkt) : Wkt := ⟨a.geoms ++ b.geoms, a.raw ++ ";" ++ b.raw⟩

/-- Modelled from the spec: `GeoVectorizer.max_points(*wkt_sets)` scans every
WKT string across the provided collections, counts coordinate points per
geometry and returns the maximum. -/
def max_points (colls : List (List Wkt)) : Nat :=
  (colls.flatten.map Wkt.pointCount).foldl max 0

/-- Well-formedness of a WKT cell: it has at least one sub-part and no
empty sub-part (the parse of a non-empty valid WKT geometry). -/
def Wkt.WF (w : Wkt) : Prop := Wkt.allParts w ≠ [] ∧ ∀ p ∈ Wkt.allParts w, p ≠ []

instance (w : Wkt) : Decidable (Wkt.WF w) := by
  unfold Wkt.WF; infer_instance

end GeoVectorizer

/-- Arithmetic mean of a list of rationals (`np.mean`; 0 on the empty list). -/
def qmean (xs : List ℚ) : ℚ := xs.sum / (xs.length : ℚ)

/-- Population variance of a list of rationals (`np.var`, ddof = 0). -/
def popVar (xs : List ℚ) : ℚ := qmean (xs.map (fun x => (x - qmean xs) ^ 2))

/-- All coordinate-channel entries of a list of feature vectors (the
flattening of the `[..., 0:2]` slice; the order is irrelevant to mean and
variance). -/
def coordEntries (vs : List Vec) : List ℚ := vs.map coordX ++ vs.map coordY

namespace geom_scaler

/-- The real (non-padding) vectors of a batch. -/
def realVecs (b : Batch) : List Vec := b.flatten.filter isReal

/-- Modelled from the spec: `geom_scaler.scale(batch)` computes the variance
of the coordinate channels over the non-padding entries of the whole batch;
`none` models the `EmptyBatchError` on a batch with no real points. -/
def scale (b : Batch) : Option ℚ :=
  if realVecs b = [] then none else some (popVar (coordEntries (realVecs b)))

/-- Modelled from the spec: the standard deviation `sqrt(scale)` used by the
transform.  `Rat.sqrt` is exact on the perfect-square rationals at which it
is evaluated in this development. -/
def sqrtQ (q : ℚ) : ℚ := Rat.sqrt q

/-- Divide the coordinate channels of a vector by `d`, passing the flag
channels through unchanged. -/
def scaleVec (d : ℚ) : Vec → Vec
  | x :: y :: rest => x / d :: y / d :: rest
  | v => v

/-- Modelled from the spec: `geom_scaler.transform(batch, scale)` divides the
coordinate channels of every entry by `sqrt(scale)` and passes flag channels
through; `none` models the `DegenerateScaleError` guard against a zero
scale. -/
def transform (b : Batch) (s : ℚ) : Option Batch :=
  if s = 0 then none else some (b.map (fun r => r.map (scaleVec (sqrtQ s))))

/-- Modelled from the spec: `geom_scaler.localized_mean(batch)` computes, per
record, the centroid of its real (non-padding) points. -/
def localized_mean (b : Batch) : List (ℚ × ℚ) :=
  b.map (fun r =>
    let rs := r.filter isReal
    (qmean (rs.map coordX), qmean (rs.map coordY)))

/-- Subtract a centroid from the coordinate channels of a real entry; padding
entries are left untouched (the spec requires padding rows to remain zero
after centering). -/
def centerVec (m : ℚ × ℚ) (v : Vec) : Vec :=
  if isReal v then (coordX v - m.1) :: (coordY v - m.2) :: v.drop 2 else v

/-- Modelled from the spec: `geom_scaler.localized_normal(batch, means,
variance)` subtracts each record's own supplied centroid from its real
entries and then applies the shared `transform` with the given variance. -/
def localized_normal (b : Batch) (ms : List (ℚ × ℚ)) (variance : ℚ) :
    Option Batch :=
  transform ((b.zip ms).map (fun pr => pr.1.map (centerVec pr.2))) variance

end geom_scaler

/-! ## Script embeddings (translated from the sources under `src/model/`) -/

/-- From `src/model/neighborhood_inhabitants.py` line 37:
`variance = np.var(train_geoms[..., 0:2])` — population variance over every
entry of the coordinate channels, padding rows included. -/
def npVarCoords (b : Batch) : ℚ := popVar (coordEntries b.flatten)

/-- From `src/model/neighborhood_inhabitants.py` lines 36–38 and 82–84: the
normalization data flow of the script.  Training: per-record means and the
shared variance are computed on the training batch.  Test: the per-record
means are recomputed on the test batch (line 83) while the variance from
training is reused (line 84). -/
def neighborhoodRun (train test : Batch) : Option (Batch × Batch) := do
  let means := geom_scaler.localized_mean train
  let variance := npVarCoords train
  let trainN ← geom_scaler.localized_normal train means variance
  let testMeans := geom_scaler.localized_mean test
  let testN ← geom_scaler.localized_normal test testMeans variance
  return (trainN, testN)

/-- From `src/model/building_type.py` lines 34, 73–74 and 125: `GEOM_SCALE`
is read from the environment with default 0 (`envGeomScale = none` models an
unset variable); `GEOM_SCALE = GEOM_SCALE or geom_scaler.scale(train_geoms)`
refits on the training batch exactly when the environment value is falsy
(0); both batches are transformed with the resolved value.  The first
component of the result is the resolved scale. -/
def buildingTypeRun (envGeomScale : Option ℚ) (train test : Batch) :
    Option (ℚ × Batch × Batch) := do
  let gs := envGeomScale.getD 0
  let s ← if gs = 0 then geom_scaler.scale train else some gs
  let trainT ← geom_scaler.transform train s
  let testT ← geom_scaler.transform test s
  return (s, trainT, testT)

/-- From `src/model/archaeology_convnet.py` lines 38 and 60–62: the same
scale resolution and transform data flow as `building_type.py`
(`geom_scale = hp['GEOM_SCALE'] or geom_scaler.scale(train_geoms)`). -/
def archaeologyRun (envGeomScale : Option ℚ) (train test : Batch) :
    Option (ℚ × Batch × Batch) := do
  let gs := envGeomScale.getD 0
  let s ← if gs = 0 then geom_scaler.scale train else some gs
  let trainT ← geom_scaler.transform train s
  let testT ← geom_scaler.transform test s
  return (s, trainT, testT)

/-! ### The corpus-preparation step `src/model/vectorize.py` -/

/-- One row of `topology-training.csv` in column order: `brt_wkt`, `osm_wkt`,
`intersection_wkt`, `centroid_distance`, `geom_distance`, then the four
centroid point columns 5–8. -/
structure Row where
  brt : Wkt
  osm : Wkt
  intersectionWkt : Wkt
  centroidDist : ℚ
  geomDist : ℚ
  brtCentroid : Wkt
  osmCentroid : Wkt
  brtCentroidRd : Wkt
  osmCentroidRd : Wkt
deriving DecidableEq

/-- The named arrays written by `np.savez_compressed` in `vectorize.py`
lines 66–76. -/
structure Archive where
  input_geoms : Batch
  intersection : Batch
  centroid_distance : List (List (List ℚ))
  geom_distance : List (List (List ℚ))
  brt_centroid : Batch
  osm_centroid : Batch
  centroids : Batch
  centroids_rd : Batch
deriving DecidableEq

/-- `MAX_SEQUENCE_LEN` of `vectorize.py` line 8. -/
def MAX_SEQUENCE_LEN : Nat := 250

/-- The raw-text length check of `vectorize.py` lines 12–13:
`len(record[0] + ';' + record[1]) <= MAX_SEQUENCE_LEN`. -/
def lengthOK (r : Row) : Bool :=
  (r.brt.raw ++ ";" ++ r.osm.raw).length ≤ MAX_SEQUENCE_LEN

/-- `np.reshape(xs, (len(xs), 1, 1))` on a column of scalars
(`vectorize.py` lines 59 and 61). -/
def reshape_n11 (xs : List ℚ) : List (List (List ℚ)) := xs.map (fun v => [[v]])

/-- `np.insert(t, 1, 0, axis=2)` (`vectorize.py` lines 60 and 62): insert a 0
at position 1 of every innermost row. -/
def insertZeroAxis2 (t : List (List (List ℚ))) : List (List (List ℚ)) :=
  t.map (List.map (fun inner => inner.insertIdx 1 0))

/-- The in-place bit fix of `vectorize.py` lines 50–51 (and 55–56):
`centroids[:, 0, FULL_STOP_INDEX] = 0` followed by
`centroids[:, 0, STOP_INDEX] = 1`. -/
def fixFirstBits (b : Batch) : Batch :=
  let b1 := b.map (fun r => r.set 0 ((r.getD 0 []).set FULL_STOP_INDEX 0))
  b1.map (fun r => r.set 0 ((r.getD 0 []).set STOP_INDEX 1))

/-- The `max_points` value of `vectorize.py` line 32, computed over the
`brt_wkt` and `osm_wkt` columns of the retained (length-checked) rows. -/
def pipelineMaxPoints (rows : List Row) : Nat :=
  GeoVectorizer.max_points
    [(rows.filter lengthOK).map Row.brt, (rows.filter lengthOK).map Row.osm]

/-- One feature write of the inner copy loop of `vectorize.py` lines 39–40
(`for feature_index, feature in enumerate(point): dst[...] = feature`). -/
def writeVec (dst src : Vec) : Vec :=
  src.enum.foldl (fun d pr => d.set pr.1 pr.2) dst

/-- The per-record copy loop of `vectorize.py` lines 38–40 / 43–45
(`for point_index, point in enumerate(vector): ...`). -/
def writeRecord (dst src : List Vec) : List Vec :=
  src.enum.foldl (fun d pr => d.set pr.1 (writeVec (d.getD pr.1 []) pr.2)) dst

/-- The preallocated zero tensor of `vectorize.py` lines 33–34
(`np.zeros((n, max_points, GEO_VECTOR_LEN))`). -/
def zerosTensor (n m : Nat) : Batch :=
  List.replicate n (List.replicate m padVec)

/-- The record loop of `vectorize.py` lines 36–45 filling a zero tensor with
the per-record vectorizations. -/
def fillTensor (n m : Nat) (vecs : List (List Vec)) : Batch :=
  vecs.enum.foldl
    (fun t pr => t.set pr.1 (writeRecord (t.getD pr.1 []) pr.2)) (zerosTensor n m)

/-- The transformation performed by `src/model/vectorize.py` on the loaded
CSV rows, with the in-place tensor-filling loops embedded as `fillTensor`
(lines 33–45).  Rows failing the raw-text length check are dropped
(lines 12–13); `none` propagates any vectorization failure.  The returned
`Archive` holds the arrays written at lines 66–76. -/
def runVectorize (rows : List Row) : Option Archive := do
  let truncated := rows.filter lengthOK
  let brtC ← truncated.mapM (fun r => GeoVectorizer.vectorize_wkt r.brtCentroid 1)
  let osmC ← truncated.mapM (fun r => GeoVectorizer.vectorize_wkt r.osmCentroid 1)
  let brtCrd ← truncated.mapM (fun r => GeoVectorizer.vectorize_wkt r.brtCentroidRd 1)
  let osmCrd ← truncated.mapM (fun r => GeoVectorizer.vectorize_wkt r.osmCentroidRd 1)
  let mp := pipelineMaxPoints rows
  let trainingVecs ← truncated.mapM (fun r => GeoVectorizer.vectorize_two_wkts r.brt r.osm mp)
  let interVecs ← truncated.mapM
    (fun r => GeoVectorizer.vectorize_wkt (GeoVectorizer.joinWkt r.brt r.osm) mp)
  let cents := fixFirstBits ((brtC.zip osmC).map (fun pr => pr.1 ++ pr.2))
  let centsRd := fixFirstBits ((brtCrd.zip osmCrd).map (fun pr => pr.1 ++ pr.2))
  let cd := insertZeroAxis2 (reshape_n11 (truncated.map Row.centroidDist))
  let gd := insertZeroAxis2 (reshape_n11 (truncated.map Row.geomDist))
  return { input_geoms := fillTensor truncated.length mp trainingVecs,
           intersection := fillTensor truncated.length mp interVecs,
           centroid_distance := cd,
           geom_distance := gd,
           brt_centroid := brtC,
           osm_centroid := osmC,
           centroids := cents,
           centroids_rd := centsRd }

/-- The same transformation with the tensor-filling loops replaced by the
direct per-record vectorization lists: the purely functional description of
the pipeline, to be proved equal to `runVectorize`. -/
def runVectorizeDirect (rows : List Row) : Option Archive := do
  let truncated := rows.filter lengthOK
  let brtC ← truncated.mapM (fun r => GeoVectorizer.vectorize_wkt r.brtCentroid 1)
  let osmC ← truncated.mapM (fun r => GeoVectorizer.vectorize_wkt r.osmCentroid 1)
  let brtCrd ← truncated.mapM (fun r => GeoVectorizer.vectorize_wkt r.brtCentroidRd 1)
  let osmCrd ← truncated.mapM (fun r => GeoVectorizer.vectorize_wkt r.osmCentroidRd 1)
  let mp := pipelineMaxPoints rows
  let trainingVecs ← truncated.mapM (fun r => GeoVectorizer.vectorize_two_wkts r.brt r.osm mp)
  let interVecs ← truncated.mapM
    (fun r => GeoVectorizer.vectorize_wkt (GeoVectorizer.joinWkt r.brt r.osm) mp)
  let cents := fixFirstBits ((brtC.zip osmC).map (fun pr => pr.1 ++ pr.2))
  let centsRd := fixFirstBits ((brtCrd.zip osmCrd).map (fun pr => pr.1 ++ pr.2))
  let cd := insertZeroAxis2 (reshape_n11 (truncated.map Row.centroidDist))
  let gd := insertZeroAxis2 (reshape_n11 (truncated.map Row.geomDist))
  return { input_geoms := trainingVecs,
           intersection := interVecs,
           centroid_distance := cd,
           geom_distance := gd,
           brt_centroid := brtC,
           osm_centroid := osmC,
           centroids := cents,
           centroids_rd := centsRd }

/-! ## Helper lemmas about the encoder -/

namespace GeoVectorizer

theorem encodePart_length (p : Part) (f : Bool) :
    (encodePart p f).length = p.length := by
  induction p with
  | nil => rfl
  | cons a t ih =>
    cases t with
    | nil => rfl
    | cons b t2 =>
      simp only [encodePart, List.length_cons]
      rw [ih]
      simp

theorem encodeParts_length (ps : List Part) :
    (encodeParts ps).length = (ps.map List.length).sum := by
  induction ps with
  | nil => rfl
  | cons p t ih =>
    cases t with
    | nil => simp [encodeParts, encodePart_length]
    | cons q t2 =>
      simp only [encodeParts, List.length_append, List.map_cons, List.sum_cons]
      rw [encodePart_length, ih]
      simp

@[simp] theorem fullStopFlag_encodePoint (p : ℚ × ℚ) (s f : ℚ) :
    fullStopFlag (encodePoint p s f) = f := rfl

@[simp] theorem stopFlag_encodePoint (p : ℚ × ℚ) (s f : ℚ) :
    stopFlag (encodePoint p s f) = s := rfl

@[simp] theorem renderFlag_encodePoint (p : ℚ × ℚ) (s f : ℚ) :
    renderFlag (encodePoint p s f) = 1 := rfl

@[simp] theorem fullStopFlag_padVec : fullStopFlag padVec = 0 := rfl

@[simp] theorem stopFlag_padVec : stopFlag padVec = 0 := rfl

@[simp] theorem renderFlag_padVec : renderFlag padVec = 0 := rfl

@[simp] theorem isReal_padVec : isReal padVec = false := rfl

@[simp] theorem encodePoint_length (p : ℚ × ℚ) (s f : ℚ) :
    (encodePoint p s f).length = GEO_VECTOR_LEN := rfl

@[simp] theorem padVec_length : padVec.length = GEO_VECTOR_LEN := rfl

theorem countFS_append (l1 l2 : List Vec) :
    countFS (l1 ++ l2) = countFS l1 + countFS l2 :=
  List.countP_append _ l1 l2

theorem countFS_encodePoint_cons (p : ℚ × ℚ) (s f : ℚ) (l : List Vec) :
    countFS (encodePoint p s f :: l) =
      countFS l + (if f = 1 then 1 else 0) := by
  simp [countFS, List.countP_cons]

theorem countFS_replicate_pad (k : Nat) :
    countFS (List.replicate k padVec) = 0 := by
  induction k with
  | zero => rfl
  | succ n ih =>
    simp only [List.replicate_succ, countFS, List.countP_cons] at *
    simp [ih]

theorem countFS_encodePart_false (p : Part) :
    countFS (encodePart p false) = 0 := by
  induction p with
  | nil => rfl
  | cons a t ih =>
    cases t with
    | nil => simp [encodePart, countFS_encodePoint_cons, countFS]
    | cons b t2 =>
      simp only [encodePart, countFS_encodePoint_cons, ih]
      norm_num

theorem countFS_encodePart_true (p : Part) (hp : p ≠ []) :
    countFS (encodePart p true) = 1 := by
  induction p with
  | nil => exact absurd rfl hp
  | cons a t ih =>
    cases t with
    | nil => simp [encodePart, countFS_encodePoint_cons, countFS]
    | cons b t2 =>
      simp only [encodePart, countFS_encodePoint_cons]
      rw [ih (by simp)]
      norm_num

theorem encodePart_getLast?_true (p : Part) (hp : p ≠ []) :
    ∃ q, (encodePart p true).getLast? = some (encodePoint q 0 1) := by
  induction p with
  | nil => exact absurd rfl hp
  | cons a t ih =>
    cases t with
    | nil => exact ⟨a, rfl⟩
    | cons b t2 =>
      obtain ⟨q, hq⟩ := ih (by simp)
      refine ⟨q, ?_⟩
      rw [show encodePart (a :: b :: t2) true
            = encodePoint a 0 0 :: encodePart (b :: t2) true from rfl]
      rw [List.getLast?_cons, ← hq]
      have hne : encodePart (b :: t2) true ≠ [] := by
        intro hnil
        have := encodePart_length (b :: t2) true
        rw [hnil] at this
        simp at this
      cases hcl : encodePart (b :: t2) true with
      | nil => exact absurd hcl hne
      | cons v vs => simp [List.getLast?_cons]

theorem encodePart_getLast?_false (p : Part) (hp : p ≠ []) :
    ∃ q, (encodePart p false).getLast? = some (encodePoint q 1 0) := by
  induction p with
  | nil => exact absurd rfl hp
  | cons a t ih =>
    cases t with
    | nil => exact ⟨a, rfl⟩
    | cons b t2 =>
      obtain ⟨q, hq⟩ := ih (by simp)
      refine ⟨q, ?_⟩
      rw [show encodePart (a :: b :: t2) false
            = encodePoint a 0 0 :: encodePart (b :: t2) false from rfl]
      rw [List.getLast?_cons, ← hq]
      have hne : encodePart (b :: t2) false ≠ [] := by
        intro hnil
        have := encodePart_length (b :: t2) false
        rw [hnil] at this
        simp at this
      cases hcl : encodePart (b :: t2) false with
      | nil => exact absurd hcl hne
      | cons v vs => simp [List.getLast?_cons]

theorem renderFlag_mem_encodePart (p : Part) (f : Bool) :
    ∀ v ∈ encodePart p f, renderFlag v = 1 := by
  induction p with
  | nil => intro v hv; simp [encodePart] at hv
  | cons a t ih =>
    cases t with
    | nil =>
      intro v hv
      simp only [encodePart, List.mem_singleton] at hv
      subst hv; rfl
    | cons b t2 =>
      intro v hv
      rw [show encodePart (a :: b :: t2) f
            = encodePoint a 0 0 :: encodePart (b :: t2) f from rfl] at hv
      rcases List.mem_cons.mp hv with h | h
      · subst h; rfl
      · exact ih v h

theorem length_mem_encodePart (p : Part) (f : Bool) :
    ∀ v ∈ encodePart p f, v.length = GEO_VECTOR_LEN := by
  induction p with
  | nil => intro v hv; simp [encodePart] at hv
  | cons a t ih =>
    cases t with
    | nil =>
      intro v hv
      simp only [encodePart, List.mem_singleton] at hv
      subst hv; rfl
    | cons b t2 =>
      intro v hv
      rw [show encodePart (a :: b :: t2) f
            = encodePoint a 0 0 :: encodePart (b :: t2) f from rfl] at hv
      rcases List.mem_cons.mp hv with h | h
      · subst h; rfl
      · exact ih v h

/-- The non-final encoding: every sub-part encoded with the stop (not the
full-stop) bit on its last point; the shape `encodeParts` takes on every
sub-part that precedes the final one. -/
def encodePartsNF (ps : List Part) : List Vec :=
  (ps.map (fun p => encodePart p false)).flatten

theorem encodePartsNF_length (ps : List Part) :
    (encodePartsNF ps).length = (ps.map List.length).sum := by
  induction ps with
  | nil => rfl
  | cons p t ih =>
    simp only [encodePartsNF, List.map_cons, List.flatten_cons,
      List.length_append, List.map_cons, List.sum_cons] at *
    rw [encodePart_length, ih]

theorem encodeParts_append (xs ys : List Part) (hy : ys ≠ []) :
    encodeParts (xs ++ ys) = encodePartsNF xs ++ encodeParts ys := by
  induction xs with
  | nil => simp [encodePartsNF]
  | cons p t ih =>
    cases t with
    | nil =>
      cases ys with
      | nil => exact absurd rfl hy
      | cons y yt =>
        simp [encodeParts, encodePartsNF]
    | cons q t2 =>
      have step : encodeParts ((p :: q :: t2) ++ ys)
          = encodePart p false ++ encodeParts ((q :: t2) ++ ys) := by
        simp [encodeParts]
      rw [step, ih]
      simp [encodePartsNF]

theorem countFS_encodePartsNF (ps : List Part) :
    countFS (encodePartsNF ps) = 0 := by
  induction ps with
  | nil => rfl
  | cons p t ih =>
    simp only [encodePartsNF, List.map_cons, List.flatten_cons] at *
    rw [countFS_append, countFS_encodePart_false, ih]

theorem countFS_encodeParts (ps : List Part) (hne : ps ≠ [])
    (hp : ∀ p ∈ ps, p ≠ []) : countFS (encodeParts ps) = 1 := by
  induction ps with
  | nil => exact absurd rfl hne
  | cons p t ih =>
    cases t with
    | nil =>
      exact countFS_encodePart_true p (hp p (by simp))
    | cons q t2 =>
      have step : encodeParts (p :: q :: t2)
          = encodePart p false ++ encodeParts (q :: t2) := by
        simp [encodeParts]
      rw [step, countFS_append, countFS_encodePart_false,
        ih (by simp) (fun r hr => hp r (List.mem_cons_of_mem p hr))]

theorem encodeParts_ne_nil (ps : List Part) (hne : ps ≠ [])
    (hp : ∀ p ∈ ps, p ≠ []) : encodeParts ps ≠ [] := by
  intro hnil
  have hlen := encodeParts_length ps
  rw [hnil] at hlen
  cases ps with
  | nil => exact hne rfl
  | cons p t =>
    have : p ≠ [] := hp p (by simp)
    simp only [List.length_nil, List.map_cons, List.sum_cons] at hlen
    have : p.length = 0 := by omega
    exact ‹p ≠ []› (List.eq_nil_of_length_eq_zero this)

theorem encodeParts_getLast? (ps : List Part) (hne : ps ≠ [])
    (hp : ∀ p ∈ ps, p ≠ []) :
    ∃ q, (encodeParts ps).getLast? = some (encodePoint q 0 1) := by
  induction ps with
  | nil => exact absurd rfl hne
  | cons p t ih =>
    cases t with
    | nil =>
      exact encodePart_getLast?_true p (hp p (by simp))
    | cons q t2 =>
      have step : encodeParts (p :: q :: t2)
          = encodePart p false ++ encodeParts (q :: t2) := by
        simp [encodeParts]
      obtain ⟨r, hr⟩ :=
        ih (by simp) (fun s hs => hp s (List.mem_cons_of_mem p hs))
      refine ⟨r, ?_⟩
      rw [step, List.getLast?_append_of_ne_nil _
        (encodeParts_ne_nil (q :: t2) (by simp)
          (fun s hs => hp s (List.mem_cons_of_mem p hs)))]
      exact hr

theorem encodePartsNF_ne_nil (ps : List Part) (hne : ps ≠ [])
    (hp : ∀ p ∈ ps, p ≠ []) : encodePartsNF ps ≠ [] := by
  intro hnil
  have hlen := encodePartsNF_length ps
  rw [hnil] at hlen
  cases ps with
  | nil => exact hne rfl
  | cons p t =>
    have : p ≠ [] := hp p (by simp)
    simp only [List.length_nil, List.map_cons, List.sum_cons] at hlen
    have : p.length = 0 := by omega
    exact ‹p ≠ []› (List.eq_nil_of_length_eq_zero this)

theorem encodePartsNF_getLast? (ps : List Part) (hne : ps ≠ [])
    (hp : ∀ p ∈ ps, p ≠ []) :
    ∃ q, (encodePartsNF ps).getLast? = some (encodePoint q 1 0) := by
  induction ps with
  | nil => exact absurd rfl hne
  | cons p t ih =>
    cases t with
    | nil =>
      simp only [encodePartsNF, List.map_cons, List.map_nil,
        List.flatten_cons, List.flatten_nil, List.append_nil]
      exact encodePart_getLast?_false p (hp p (by simp))
    | cons q t2 =>
      have step : encodePartsNF (p :: q :: t2)
          = encodePart p false ++ encodePartsNF (q :: t2) := by
        simp [encodePartsNF]
      obtain ⟨r, hr⟩ :=
        ih (by simp) (fun s hs => hp s (List.mem_cons_of_mem p hs))
      refine ⟨r, ?_⟩
      rw [step, List.getLast?_append_of_ne_nil _
        (encodePartsNF_ne_nil (q :: t2) (by simp)
          (fun s hs => hp s (List.mem_cons_of_mem p hs)))]
      exact hr

theorem renderFlag_mem_encodeParts (ps : List Part) :
    ∀ v ∈ encodeParts ps, renderFlag v = 1 := by
  induction ps with
  | nil => intro v hv; simp [encodeParts] at hv
  | cons p t ih =>
    cases t with
    | nil => exact renderFlag_mem_encodePart p true
    | cons q t2 =>
      intro v hv
      have step : encodeParts (p :: q :: t2)
          = encodePart p false ++ encodeParts (q :: t2) := by
        simp [encodeParts]
      rw [step] at hv
      rcases List.mem_append.mp hv with h | h
      · exact renderFlag_mem_encodePart p false v h
      · exact ih v h

theorem length_mem_encodeParts (ps : List Part) :
    ∀ v ∈ encodeParts ps, v.length = GEO_VECTOR_LEN := by
  induction ps with
  | nil => intro v hv; simp [encodeParts] at hv
  | cons p t ih =>
    cases t with
    | nil => exact length_mem_encodePart p true
    | cons q t2 =>
      intro v hv
      have step : encodeParts (p :: q :: t2)
          = encodePart p false ++ encodeParts (q :: t2) := by
        simp [encodeParts]
      rw [step] at hv
      rcases List.mem_append.mp hv with h | h
      · exact length_mem_encodePart p false v h
      · exact ih v h

theorem vectorizeParts_eq_some (ps : List Part) (maxPts : Nat)
    (h : (ps.map List.length).sum ≤ maxPts) :
    vectorizeParts ps maxPts
      = some (encodeParts ps
          ++ List.replicate (maxPts - (ps.map List.length).sum) padVec) := by
  simp [vectorizeParts, h]

theorem vectorizeParts_length (ps : List Part) (maxPts : Nat)
    (out : List Vec) (h : vectorizeParts ps maxPts = some out) :
    out.length = maxPts := by
  unfold vectorizeParts at h
  split at h
  · rename_i hle
    rw [Option.some.injEq] at h
    subst h
    simp [encodeParts_length]
    omega
  · exact absurd h (by simp)

theorem vectorizeParts_vecLen (ps : List Part) (maxPts : Nat)
    (out : List Vec) (h : vectorizeParts ps maxPts = some out) :
    ∀ v ∈ out, v.length = GEO_VECTOR_LEN := by
  unfold vectorizeParts at h
  split at h
  · rw [Option.some.injEq] at h
    subst h
    intro v hv
    rcases List.mem_append.mp hv with hm | hm
    · exact length_mem_encodeParts ps v hm
    · rw [List.eq_of_mem_replicate hm]; rfl
  · exact absurd h (by simp)

end GeoVectorizer

/-! ## Helper lemmas: `mapM` over `Option`, and the copy loops -/

theorem mapM_option_eq_some {α β : Type} (f : α → Option β) :
    ∀ (l : List α) (l2 : List β),
      l.mapM f = some l2 ↔ List.Forall₂ (fun a b => f a = some b) l l2 := by
  intro l
  induction l with
  | nil =>
    intro l2
    constructor
    · intro h
      simp only [List.mapM_nil] at h
      cases h
      exact List.Forall₂.nil
    · intro h
      cases h
      rfl
  | cons a t ih =>
    intro l2
    constructor
    · intro h
      rw [List.mapM_cons] at h
      simp only [bind, Option.bind_eq_some, pure, Option.some.injEq] at h
      obtain ⟨b, hb, bs, hbs, hcons⟩ := h
      subst hcons
      exact List.Forall₂.cons hb ((ih bs).mp hbs)
    · intro h
      rcases List.forall₂_cons_left_iff.mp h with ⟨b, u, hb, ht, hu⟩
      subst hu
      rw [List.mapM_cons]
      simp only [bind, Option.bind_eq_some, pure, Option.some.injEq]
      exact ⟨b, hb, u, (ih u).mpr ht, rfl⟩

theorem mapM_option_length {α β : Type} {f : α → Option β} {l : List α}
    {l2 : List β} (h : l.mapM f = some l2) : l2.length = l.length :=
  (((mapM_option_eq_some f l l2).mp h).length_eq).symm

theorem forall_mem_of_forall₂ {α β : Type} {R : α → β → Prop} :
    ∀ {l : List α} {l2 : List β}, List.Forall₂ R l l2 →
      ∀ b ∈ l2, ∃ a ∈ l, R a b := by
  intro l l2 h
  induction h with
  | nil => intro b hb; simp at hb
  | cons hr _ ih =>
    intro b hb
    rcases List.mem_cons.mp hb with h1 | h1
    · subst h1; exact ⟨_, by simp, hr⟩
    · obtain ⟨a, ha, har⟩ := ih b h1
      exact ⟨a, List.mem_cons_of_mem _ ha, har⟩

theorem mapM_option_map {α β γ : Type} (g : α → β) (f : β → Option γ)
    (l : List α) : (l.map g).mapM f = l.mapM (fun a => f (g a)) := by
  induction l with
  | nil => rfl
  | cons a t ih =>
    simp only [List.map_cons, List.mapM_cons, ih]

theorem mapM_option_congr {α β : Type} {f g : α → Option β} :
    ∀ {l : List α}, (∀ a ∈ l, f a = g a) → l.mapM f = l.mapM g := by
  intro l
  induction l with
  | nil => intro _; rfl
  | cons a t ih =>
    intro h
    rw [List.mapM_cons, List.mapM_cons, h a (by simp),
      ih (fun x hx => h x (List.mem_cons_of_mem a hx))]

/-- The effect of an enumerated fold of read-modify-writes over a list:
positions before `k` are untouched, positions from `k` on are combined with
the source elements. -/
theorem foldl_set_enumFrom {α : Type} (f : α → α → α) (dflt : α) :
    ∀ (src : List α) (k : Nat) (dst : List α), dst.length = k + src.length →
      (List.enumFrom k src).foldl
          (fun d pr => d.set pr.1 (f (d.getD pr.1 dflt) pr.2)) dst
        = dst.take k ++ List.zipWith f (dst.drop k) src := by
  intro src
  induction src with
  | nil =>
    intro k dst h
    simp only [List.length_nil, Nat.add_zero] at h
    simp [List.take_of_length_le (le_of_eq h)]
  | cons s ss ih =>
    intro k dst h
    have hk : k < dst.length := by
      simp only [List.length_cons] at h
      omega
    rw [List.enumFrom_cons]
    simp only [List.foldl_cons]
    rw [ih (k + 1) (dst.set k (f (dst.getD k dflt) s))
      (by simp only [List.length_set, List.length_cons] at *; omega)]
    have hset : dst.set k (f (dst.getD k dflt) s)
        = dst.take k ++ f (dst.getD k dflt) s :: dst.drop (k + 1) := by
      rw [List.set_eq_take_append_cons_drop]
      simp [hk]
    have htake : (dst.set k (f (dst.getD k dflt) s)).take (k + 1)
        = dst.take k ++ [f (dst.getD k dflt) s] := by
      rw [hset, List.take_append_eq_append_take]
      have hlt : (dst.take k).length = k := List.length_take_of_le (le_of_lt hk)
      rw [List.take_of_length_le (by omega), hlt]
      simp
    have hdrop : (dst.set k (f (dst.getD k dflt) s)).drop (k + 1)
        = dst.drop (k + 1) := List.drop_set_of_lt _ _ (by omega)
    rw [htake, hdrop, List.drop_eq_getElem_cons hk, List.zipWith_cons_cons,
      List.getD_eq_getElem dst dflt hk, List.append_assoc]
    rfl

theorem zipWith_second {α β : Type} :
    ∀ (l1 : List α) (l2 : List β), l1.length = l2.length →
      List.zipWith (fun _ s => s) l1 l2 = l2 := by
  intro l1
  induction l1 with
  | nil =>
    intro l2 h
    cases l2 with
    | nil => rfl
    | cons b t => simp at h
  | cons a t ih =>
    intro l2 h
    cases l2 with
    | nil => simp at h
    | cons b t2 =>
      simp only [List.zipWith_cons_cons]
      rw [ih t2 (by simpa using h)]

theorem zipWith_replicate_left {α β : Type} (f : α → β → β) (a : α) :
    ∀ (n : Nat) (l : List β), l.length = n →
      List.zipWith f (List.replicate n a) l = l.map (f a) := by
  intro n
  induction n with
  | zero =>
    intro l h
    cases l with
    | nil => rfl
    | cons b t => simp at h
  | succ m ih =>
    intro l h
    cases l with
    | nil => simp at h
    | cons b t =>
      simp only [List.replicate_succ, List.zipWith_cons_cons, List.map_cons]
      rw [ih t (by simpa using h)]

theorem writeVec_eq (dst src : Vec) (h : dst.length = src.length) :
    writeVec dst src = src := by
  have h2 := foldl_set_enumFrom (fun _ s => s) (0 : ℚ) src 0 dst (by omega)
  refine Eq.trans h2 ?_
  simp only [List.take_zero, List.drop_zero, List.nil_append]
  exact zipWith_second dst src h

theorem writeRecord_eq (m : Nat) (src : List Vec) (h : src.length = m)
    (hv : ∀ v ∈ src, v.length = GEO_VECTOR_LEN) :
    writeRecord (List.replicate m padVec) src = src := by
  have h2 := foldl_set_enumFrom writeVec ([] : Vec) src 0
    (List.replicate m padVec) (by simp [h])
  refine Eq.trans h2 ?_
  simp only [List.take_zero, List.drop_zero, List.nil_append]
  rw [zipWith_replicate_left writeVec padVec m src h]
  have : ∀ v ∈ src, writeVec padVec v = v := by
    intro v hvm
    exact writeVec_eq padVec v (by rw [hv v hvm]; rfl)
  calc src.map (writeVec padVec) = src.map id := List.map_congr_left this
    _ = src := List.map_id src

theorem fillTensor_eq (n m : Nat) (vecs : List (List Vec))
    (h : vecs.length = n)
    (hrec : ∀ r ∈ vecs, r.length = m ∧ ∀ v ∈ r, v.length = GEO_VECTOR_LEN) :
    fillTensor n m vecs = vecs := by
  have h2 := foldl_set_enumFrom writeRecord ([] : List Vec) vecs 0
    (zerosTensor n m) (by simp [zerosTensor, h])
  refine Eq.trans h2 ?_
  simp only [List.take_zero, List.drop_zero, List.nil_append, zerosTensor]
  rw [zipWith_replicate_left writeRecord (List.replicate m padVec) n vecs h]
  have : ∀ r ∈ vecs, writeRecord (List.replicate m padVec) r = r := by
    intro r hrm
    exact writeRecord_eq m r (hrec r hrm).1 (hrec r hrm).2
  calc vecs.map (writeRecord (List.replicate m padVec)) = vecs.map id :=
        List.map_congr_left this
    _ = vecs := List.map_id vecs

/-- Appending `k` all-zero padding rows to every record of a batch. -/
def padRecords (b : Batch) (k : Nat) : Batch :=
  b.map (fun r => r ++ List.replicate k padVec)

theorem realVecs_padRecords (b : Batch) (k : Nat) :
    geom_scaler.realVecs (padRecords b k) = geom_scaler.realVecs b := by
  unfold geom_scaler.realVecs padRecords
  induction b with
  | nil => rfl
  | cons r t ih =>
    simp only [List.map_cons, List.flatten_cons, List.filter_append]
    rw [List.filter_replicate]
    simp only [GeoVectorizer.isReal_padVec, Bool.false_eq_true, if_neg]
    simp only [List.filter_append] at ih
    rw [ih]
    simp

theorem scale_padRecords (b : Batch) (k : Nat) :
    geom_scaler.scale (padRecords b k) = geom_scaler.scale b := by
  unfold geom_scaler.scale
  rw [realVecs_padRecords]

theorem le_foldl_max (l : List Nat) (a : Nat) : a ≤ l.foldl max a := by
  induction l generalizing a with
  | nil => exact Nat.le_refl a
  | cons x t ih => exact le_trans (Nat.le_max_left a x) (ih (max a x))

theorem mem_le_foldl_max (l : List Nat) (x : Nat) (hx : x ∈ l) (a : Nat) :
    x ≤ l.foldl max a := by
  induction l generalizing a with
  | nil => simp at hx
  | cons y t ih =>
    rw [List.foldl_cons]
    rcases List.mem_cons.mp hx with h | h
    · subst h
      exact le_trans (Nat.le_max_right a x) (le_foldl_max t (max a x))
    · exact ih h (max a y)

theorem foldl_max_mem (l : List Nat) (a : Nat) :
    l.foldl max a = a ∨ l.foldl max a ∈ l := by
  induction l generalizing a with
  | nil => exact Or.inl rfl
  | cons x t ih =>
    rcases ih (max a x) with h | h
    · rcases Nat.le_total a x with hle | hle
      · right
        rw [List.foldl_cons, h, Nat.max_eq_right hle]
        simp
      · left
        rw [List.foldl_cons, h, Nat.max_eq_left hle]
    · right
      exact List.mem_cons_of_mem x h

theorem vectorizeParts_le (ps : List Part) (maxPts : Nat) (out : List Vec)
    (h : GeoVectorizer.vectorizeParts ps maxPts = some out) :
    (ps.map List.length).sum ≤ maxPts := by
  unfold GeoVectorizer.vectorizeParts at h
  split at h
  · assumption
  · exact absurd h (by simp)

theorem encodeParts_single_point (ps : List Part) (hp : ∀ p ∈ ps, p ≠ [])
    (hcount : (ps.map List.length).sum = 1) :
    ∃ q, GeoVectorizer.encodeParts ps = [GeoVectorizer.encodePoint q 0 1] := by
  cases ps with
  | nil => simp at hcount
  | cons p t =>
    cases t with
    | nil =>
      cases p with
      | nil => exact absurd rfl (hp [] (by simp))
      | cons a s =>
        cases s with
        | nil => exact ⟨a, rfl⟩
        | cons b s2 => simp at hcount
    | cons p2 t2 =>
      have h1 : 1 ≤ p.length := List.length_pos.mpr (hp p (by simp))
      have h2 : 1 ≤ p2.length := List.length_pos.mpr (hp p2 (by simp))
      simp only [List.map_cons, List.sum_cons] at hcount
      omega

/-- The in-place tensor-filling loops of `vectorize.py` compute exactly the
per-record vectorization lists: the imperative pipeline equals its purely
functional description. -/
theorem runVectorize_eq_direct (rows : List Row) :
    runVectorize rows = runVectorizeDirect rows := by
  unfold runVectorize runVectorizeDirect
  cases h1 : (rows.filter lengthOK).mapM
      (fun r => GeoVectorizer.vectorize_wkt r.brtCentroid 1) with
  | none => simp only [h1]; rfl
  | some brtC =>
  cases h2 : (rows.filter lengthOK).mapM
      (fun r => GeoVectorizer.vectorize_wkt r.osmCentroid 1) with
  | none => simp only [h2]; rfl
  | some osmC =>
  cases h3 : (rows.filter lengthOK).mapM
      (fun r => GeoVectorizer.vectorize_wkt r.brtCentroidRd 1) with
  | none => simp only [h3]; rfl
  | some brtCrd =>
  cases h4 : (rows.filter lengthOK).mapM
      (fun r => GeoVectorizer.vectorize_wkt r.osmCentroidRd 1) with
  | none => simp only [h4]; rfl
  | some osmCrd =>
  cases h5 : (rows.filter lengthOK).mapM
      (fun r => GeoVectorizer.vectorize_two_wkts r.brt r.osm
        (pipelineMaxPoints rows)) with
  | none => simp only [h5]; rfl
  | some trainingVecs =>
  cases h6 : (rows.filter lengthOK).mapM
      (fun r => GeoVectorizer.vectorize_wkt
        (GeoVectorizer.joinWkt r.brt r.osm) (pipelineMaxPoints rows)) with
  | none => simp only [h6]; rfl
  | some interVecs =>
  have hfill : ∀ (vecs : List (List Vec)),
      vecs.length = (rows.filter lengthOK).length →
      (∀ rec2 ∈ vecs, rec2.length = pipelineMaxPoints rows ∧
        ∀ v ∈ rec2, v.length = GEO_VECTOR_LEN) →
      fillTensor (rows.filter lengthOK).length (pipelineMaxPoints rows) vecs
        = vecs := by
    intro vecs hlen hprop
    exact fillTensor_eq _ _ vecs hlen hprop
  have htrain : fillTensor (rows.filter lengthOK).length
      (pipelineMaxPoints rows) trainingVecs = trainingVecs := by
    refine hfill trainingVecs (mapM_option_length h5) ?_
    intro rec2 hmem
    obtain ⟨r, _, hr⟩ :=
      forall_mem_of_forall₂ ((mapM_option_eq_some _ _ _).mp h5) rec2 hmem
    exact ⟨GeoVectorizer.vectorizeParts_length _ _ _ hr,
      GeoVectorizer.vectorizeParts_vecLen _ _ _ hr⟩
  have hinter : fillTensor (rows.filter lengthOK).length
      (pipelineMaxPoints rows) interVecs = interVecs := by
    refine hfill interVecs (mapM_option_length h6) ?_
    intro rec2 hmem
    obtain ⟨r, _, hr⟩ :=
      forall_mem_of_forall₂ ((mapM_option_eq_some _ _ _).mp h6) rec2 hmem
    exact ⟨GeoVectorizer.vectorizeParts_length _ _ _ hr,
      GeoVectorizer.vectorizeParts_vecLen _ _ _ hr⟩
  simp only [h1, h2, h3, h4, h5, h6, Option.bind_eq_bind, Option.some_bind,
    Option.pure_def]
  rw [htrain, hinter]

/-- Inversion of a successful run of the `vectorize.py` pipeline: the six
vectorization passes all succeeded and every archive field is given by the
corresponding expression over the retained rows. -/
theorem runVectorize_inv (rows : List Row) (out : Archive)
    (h : runVectorize rows = some out) :
    ∃ brtC osmC brtCrd osmCrd trainingVecs interVecs,
      (rows.filter lengthOK).mapM
          (fun r => GeoVectorizer.vectorize_wkt r.brtCentroid 1) = some brtC ∧
      (rows.filter lengthOK).mapM
          (fun r => GeoVectorizer.vectorize_wkt r.osmCentroid 1) = some osmC ∧
      (rows.filter lengthOK).mapM
          (fun r => GeoVectorizer.vectorize_wkt r.brtCentroidRd 1) = some brtCrd ∧
      (rows.filter lengthOK).mapM
          (fun r => GeoVectorizer.vectorize_wkt r.osmCentroidRd 1) = some osmCrd ∧
      (rows.filter lengthOK).mapM
          (fun r => GeoVectorizer.vectorize_two_wkts r.brt r.osm
            (pipelineMaxPoints rows)) = some trainingVecs ∧
      (rows.filter lengthOK).mapM
          (fun r => GeoVectorizer.vectorize_wkt
            (GeoVectorizer.joinWkt r.brt r.osm) (pipelineMaxPoints rows))
        = some interVecs ∧
      out.input_geoms = trainingVecs ∧
      out.intersection = interVecs ∧
      out.centroid_distance = insertZeroAxis2
        (reshape_n11 ((rows.filter lengthOK).map Row.centroidDist)) ∧
      out.geom_distance = insertZeroAxis2
        (reshape_n11 ((rows.filter lengthOK).map Row.geomDist)) ∧
      out.brt_centroid = brtC ∧
      out.osm_centroid = osmC ∧
      out.centroids = fixFirstBits
        ((brtC.zip osmC).map (fun pr => pr.1 ++ pr.2)) ∧
      out.centroids_rd = fixFirstBits
        ((brtCrd.zip osmCrd).map (fun pr => pr.1 ++ pr.2)) := by
  rw [runVectorize_eq_direct] at h
  unfold runVectorizeDirect at h
  cases h1 : (rows.filter lengthOK).mapM
      (fun r => GeoVectorizer.vectorize_wkt r.brtCentroid 1) with
  | none =>
    simp only [h1, Option.bind_eq_bind, Option.none_bind] at h
    exact Option.noConfusion h
  | some brtC =>
  cases h2 : (rows.filter lengthOK).mapM
      (fun r => GeoVectorizer.vectorize_wkt r.osmCentroid 1) with
  | none =>
    simp only [h1, h2, Option.bind_eq_bind, Option.some_bind,
      Option.none_bind] at h
    exact Option.noConfusion h
  | some osmC =>
  cases h3 : (rows.filter lengthOK).mapM
      (fun r => GeoVectorizer.vectorize_wkt r.brtCentroidRd 1) with
  | none =>
    simp only [h1, h2, h3, Option.bind_eq_bind, Option.some_bind,
      Option.none_bind] at h
    exact Option.noConfusion h
  | some brtCrd =>
  cases h4 : (rows.filter lengthOK).mapM
      (fun r => GeoVectorizer.vectorize_wkt r.osmCentroidRd 1) with
  | none =>
    simp only [h1, h2, h3, h4, Option.bind_eq_bind, Option.some_bind,
      Option.none_bind] at h
    exact Option.noConfusion h
  | some osmCrd =>
  cases h5 : (rows.filter lengthOK).mapM
      (fun r => GeoVectorizer.vectorize_two_wkts r.brt r.osm
        (pipelineMaxPoints rows)) with
  | none =>
    simp only [h1, h2, h3, h4, h5, Option.bind_eq_bind, Option.some_bind,
      Option.none_bind] at h
    exact Option.noConfusion h
  | some trainingVecs =>
  cases h6 : (rows.filter lengthOK).mapM
      (fun r => GeoVectorizer.vectorize_wkt
        (GeoVectorizer.joinWkt r.brt r.osm) (pipelineMaxPoints rows)) with
  | none =>
    simp only [h1, h2, h3, h4, h5, h6, Option.bind_eq_bind, Option.some_bind,
      Option.none_bind] at h
    exact Option.noConfusion h
  | some interVecs =>
  simp only [h1, h2, h3, h4, h5, h6, Option.bind_eq_bind, Option.some_bind,
    Option.pure_def, Option.some.injEq] at h
  exact ⟨brtC, osmC, brtCrd, osmCrd, trainingVecs, interVecs,
    rfl, rfl, rfl, rfl, rfl, rfl,
    by rw [← h], by rw [← h], by rw [← h], by rw [← h],
    by rw [← h], by rw [← h], by rw [← h], by rw [← h]⟩

/-- Inversion of the normalization data flow of `building_type.py`: a
successful run transforms both batches with the single resolved scale, which
is the refit `geom_scaler.scale` of the training batch exactly when the
environment value is absent or zero, and the environment value verbatim
otherwise. -/
theorem buildingTypeRun_inv (e : Option ℚ) (train test : Batch)
    (s : ℚ) (trT teT : Batch)
    (h : buildingTypeRun e train test = some (s, trT, teT)) :
    geom_scaler.transform train s = some trT ∧
    geom_scaler.transform test s = some teT ∧
    (e.getD 0 = 0 → geom_scaler.scale train = some s) ∧
    (e.getD 0 ≠ 0 → s = e.getD 0) := by
  simp only [buildingTypeRun, Option.bind_eq_bind] at h
  by_cases hgs : e.getD 0 = 0
  · rw [if_pos hgs] at h
    cases hsc : geom_scaler.scale train with
    | none =>
      rw [hsc] at h
      simp only [Option.none_bind] at h
      exact Option.noConfusion h
    | some s2 =>
      rw [hsc] at h
      simp only [Option.some_bind] at h
      cases htr : geom_scaler.transform train s2 with
      | none =>
        rw [htr] at h
        simp only [Option.none_bind] at h
        exact Option.noConfusion h
      | some t1 =>
        rw [htr] at h
        simp only [Option.some_bind] at h
        cases hte : geom_scaler.transform test s2 with
        | none =>
          rw [hte] at h
          simp only [Option.none_bind] at h
          exact Option.noConfusion h
        | some t2 =>
          rw [hte] at h
          simp only [Option.some_bind, Option.pure_def, Option.some.injEq,
            Prod.mk.injEq] at h
          obtain ⟨hs, ht1, ht2⟩ := h
          subst hs; subst ht1; subst ht2
          exact ⟨htr, hte, fun _ => rfl, fun hne => absurd hgs hne⟩
  · rw [if_neg hgs] at h
    simp only [Option.some_bind] at h
    cases htr : geom_scaler.transform train (e.getD 0) with
    | none =>
      rw [htr] at h
      simp only [Option.none_bind] at h
      exact Option.noConfusion h
    | some t1 =>
      rw [htr] at h
      simp only [Option.some_bind] at h
      cases hte : geom_scaler.transform test (e.getD 0) with
      | none =>
        rw [hte] at h
        simp only [Option.none_bind] at h
        exact Option.noConfusion h
      | some t2 =>
        rw [hte] at h
        simp only [Option.some_bind, Option.pure_def, Option.some.injEq,
          Prod.mk.injEq] at h
        obtain ⟨hs, ht1, ht2⟩ := h
        subst hs; subst ht1; subst ht2
        exact ⟨htr, hte, fun h0 => absurd h0 hgs, fun _ => rfl⟩

/-- Inversion of the normalization data flow of `archaeology_convnet.py`;
identical to the one of `building_type.py`. -/
theorem archaeologyRun_inv (e : Option ℚ) (train test : Batch)
    (s : ℚ) (trT teT : Batch)
    (h : archaeologyRun e train test = some (s, trT, teT)) :
    geom_scaler.transform train s = some trT ∧
    geom_scaler.transform test s = some teT ∧
    (e.getD 0 = 0 → geom_scaler.scale train = some s) ∧
    (e.getD 0 ≠ 0 → s = e.getD 0) := by
  have : archaeologyRun e train test = buildingTypeRun e train test := rfl
  rw [this] at h
  exact buildingTypeRun_inv e train test s trT teT h

/-- Inversion of the normalization data flow of
`neighborhood_inhabitants.py`: the shared variance used for the test batch
is the one computed from the training batch, while the per-record means for
the test batch are recomputed from the test batch itself. -/
theorem neighborhoodRun_inv (train test : Batch) (trN teN : Batch)
    (h : neighborhoodRun train test = some (trN, teN)) :
    geom_scaler.localized_normal train (geom_scaler.localized_mean train)
        (npVarCoords train) = some trN ∧
    geom_scaler.localized_normal test (geom_scaler.localized_mean test)
        (npVarCoords train) = some teN := by
  simp only [neighborhoodRun, Option.bind_eq_bind] at h
  cases htr : geom_scaler.localized_normal train
      (geom_scaler.localized_mean train) (npVarCoords train) with
  | none =>
    rw [htr] at h
    simp only [Option.none_bind] at h
    exact Option.noConfusion h
  | some t1 =>
    rw [htr] at h
    simp only [Option.some_bind] at h
    cases hte : geom_scaler.localized_normal test
        (geom_scaler.localized_mean test) (npVarCoords train) with
    | none =>
      rw [hte] at h
      simp only [Option.none_bind] at h
      exact Option.noConfusion h
    | some t2 =>
      rw [hte] at h
      simp only [Option.some_bind, Option.pure_def, Option.some.injEq,
        Prod.mk.injEq] at h
      obtain ⟨ht1, ht2⟩ := h
      subst ht1; subst ht2
      exact ⟨rfl, rfl⟩

theorem WF_pointCount_pos (w : Wkt) (h : GeoVectorizer.Wkt.WF w) :
    1 ≤ GeoVectorizer.Wkt.pointCount w := by
  obtain ⟨hne, hp⟩ := h
  cases hap : GeoVectorizer.Wkt.allParts w with
  | nil => exact absurd hap hne
  | cons p t =>
    have hpne : p ≠ [] := hp p (by rw [hap]; exact List.mem_cons_self p t)
    have hlp : 1 ≤ p.length := List.length_pos.mpr hpne
    unfold GeoVectorizer.Wkt.pointCount
    rw [hap]
    simp only [List.map_cons, List.sum_cons]
    omega

theorem countFS_pair (v0 v1 : Vec) (h0 : fullStopFlag v0 = 0)
    (h1 : fullStopFlag v1 = 1) : countFS [v0, v1] = 1 := by
  simp [countFS, List.countP_cons, h0, h1]

/-! ## Concrete data used by witnesses and counterexamples -/

/-- A two-record batch of single-point records whose coordinate entries have
population variance 1 and whose per-record centroids are (1, -1) and
(-1, 1). -/
def cTrain : Batch := [[[1, -1, 1, 0, 1]], [[-1, 1, 1, 0, 1]]]

/-- A two-record batch whose per-record centroids are both (3, 5). -/
def cTest : Batch := [[[3, 5, 1, 0, 1]], [[3, 5, 1, 0, 1]]]

/-- A two-record batch whose coordinate entries have population variance 4. -/
def cVar4 : Batch := [[[2, -2, 1, 0, 1]], [[-2, 2, 1, 0, 1]]]

/-- `POINT (x y)` as a parsed WKT cell. -/
def pointWkt (x y : ℚ) (raw : String) : Wkt := ⟨[⟨[[(x, y)]]⟩], raw⟩

/-- A three-point linestring cell. -/
def lineWkt3 : Wkt := ⟨[⟨[[(0, 0), (1, 1), (2, 2)]]⟩], "LINESTRING (0 0, 1 1, 2 2)"⟩

/-- Another three-point linestring cell. -/
def lineWkt3b : Wkt := ⟨[⟨[[(5, 0), (6, 1), (7, 2)]]⟩], "LINESTRING (5 0, 6 1, 7 2)"⟩

/-- A cell holding no geometry and empty raw text. -/
def emptyWkt : Wkt := ⟨[], ""⟩

/-- A cell whose raw text exceeds `MAX_SEQUENCE_LEN`. -/
def longWkt : Wkt := ⟨[], String.mk (List.replicate 251 'a')⟩

/-- A CSV row on which the whole pipeline succeeds (the `osm` cell is empty,
so the pair fits the scanned per-geometry maximum). -/
def rowA : Row :=
  { brt := lineWkt3, osm := emptyWkt, intersectionWkt := emptyWkt,
    centroidDist := 7, geomDist := 9,
    brtCentroid := pointWkt 5 5 "POINT (5 5)",
    osmCentroid := pointWkt 6 6 "POINT (6 6)",
    brtCentroidRd := pointWkt 1 2 "POINT (1 2)",
    osmCentroidRd := pointWkt 3 4 "POINT (3 4)" }

/-- A row that passes the raw-text length check but whose pair of three-point
geometries exceeds the scanned per-geometry maximum. -/
def rowBad : Row := { rowA with osm := lineWkt3b }

/-- A row whose raw text fails the length check. -/
def rowLong : Row := { rowA with brt := longWkt }

/-- The empty archive. -/
def emptyArchive : Archive := ⟨[], [], [], [], [], [], [], []⟩

/-- The archive produced by the pipeline on `[rowA]`. -/
def archA : Archive := (runVectorize [rowA]).getD emptyArchive

/-! ## Concrete evaluation lemmas for the scaler -/

theorem sqrtQ_one : geom_scaler.sqrtQ 1 = 1 := by decide

theorem scaleVec_one (v : Vec) : geom_scaler.scaleVec 1 v = v := by
  cases v with
  | nil => rfl
  | cons x t =>
    cases t with
    | nil => rfl
    | cons y rest => simp [geom_scaler.scaleVec]

theorem transform_one (b : Batch) : geom_scaler.transform b 1 = some b := by
  unfold geom_scaler.transform
  rw [if_neg one_ne_zero, sqrtQ_one]
  have hid : geom_scaler.scaleVec 1 = id := funext scaleVec_one
  rw [hid]
  simp

theorem popVar_pm_one : popVar [1, -1, -1, 1] = 1 := by
  simp [popVar, qmean]
  norm_num

theorem scale_cTrain : geom_scaler.scale cTrain = some 1 := by
  have h1 : geom_scaler.realVecs cTrain
      = [[1, -1, 1, 0, 1], [-1, 1, 1, 0, 1]] := by decide
  have h2 : coordEntries [[1, -1, 1, 0, 1], [-1, 1, 1, 0, 1]]
      = [1, -1, -1, 1] := by decide
  unfold geom_scaler.scale
  rw [h1, h2, popVar_pm_one]
  simp

theorem scale_cVar4 : geom_scaler.scale cVar4 = some 4 := by
  have h1 : geom_scaler.realVecs cVar4
      = [[2, -2, 1, 0, 1], [-2, 2, 1, 0, 1]] := by decide
  have h2 : coordEntries [[2, -2, 1, 0, 1], [-2, 2, 1, 0, 1]]
      = [2, -2, -2, 2] := by decide
  have h3 : popVar [2, -2, -2, 2] = 4 := by
    simp [popVar, qmean]
    norm_num
  unfold geom_scaler.scale
  rw [h1, h2, h3]
  simp

theorem npVarCoords_cTrain : npVarCoords cTrain = 1 := by
  have h2 : coordEntries cTrain.flatten = [1, -1, -1, 1] := by decide
  unfold npVarCoords
  rw [h2, popVar_pm_one]

theorem localized_mean_cTrain :
    geom_scaler.localized_mean cTrain = [(1, -1), (-1, 1)] := by
  have h1 : List.filter isReal [([1, -1, 1, 0, 1] : Vec)]
      = [[1, -1, 1, 0, 1]] := by decide
  have h2 : List.filter isReal [([-1, 1, 1, 0, 1] : Vec)]
      = [[-1, 1, 1, 0, 1]] := by decide
  unfold geom_scaler.localized_mean cTrain
  simp only [List.map_cons, List.map_nil, h1, h2]
  simp [qmean, coordX, coordY]

theorem localized_mean_cTest :
    geom_scaler.localized_mean cTest = [(3, 5), (3, 5)] := by
  have h1 : List.filter isReal [([3, 5, 1, 0, 1] : Vec)]
      = [[3, 5, 1, 0, 1]] := by decide
  unfold geom_scaler.localized_mean cTest
  simp only [List.map_cons, List.map_nil, h1]
  simp [qmean, coordX, coordY]

theorem centered_cTrain :
    (cTrain.zip [((1 : ℚ), (-1 : ℚ)), (-1, 1)]).map
        (fun pr => pr.1.map (geom_scaler.centerVec pr.2))
      = [[[0, 0, 1, 0, 1]], [[0, 0, 1, 0, 1]]] := by
  have hr : isReal [1, -1, 1, 0, 1] = true := by decide
  have hr2 : isReal [-1, 1, 1, 0, 1] = true := by decide
  simp [cTrain, geom_scaler.centerVec, hr, hr2, coordX, coordY]

theorem centered_cTest_own :
    (cTest.zip [((3 : ℚ), (5 : ℚ)), (3, 5)]).map
        (fun pr => pr.1.map (geom_scaler.centerVec pr.2))
      = [[[0, 0, 1, 0, 1]], [[0, 0, 1, 0, 1]]] := by
  have hr : isReal [3, 5, 1, 0, 1] = true := by decide
  simp [cTest, geom_scaler.centerVec, hr, coordX, coordY]

theorem centered_cTest_trainMeans :
    (cTest.zip [((1 : ℚ), (-1 : ℚ)), (-1, 1)]).map
        (fun pr => pr.1.map (geom_scaler.centerVec pr.2))
      = [[[2, 6, 1, 0, 1]], [[4, 4, 1, 0, 1]]] := by
  have hr : isReal [3, 5, 1, 0, 1] = true := by decide
  simp [cTest, geom_scaler.centerVec, hr, coordX, coordY]
  norm_num

theorem localized_normal_cTrain :
    geom_scaler.localized_normal cTrain (geom_scaler.localized_mean cTrain) 1
      = some [[[0, 0, 1, 0, 1]], [[0, 0, 1, 0, 1]]] := by
  unfold geom_scaler.localized_normal
  rw [localized_mean_cTrain, centered_cTrain, transform_one]

theorem localized_normal_cTest_own :
    geom_scaler.localized_normal cTest (geom_scaler.localized_mean cTest) 1
      = some [[[0, 0, 1, 0, 1]], [[0, 0, 1, 0, 1]]] := by
  unfold geom_scaler.localized_normal
  rw [localized_mean_cTest, centered_cTest_own, transform_one]

theorem localized_normal_cTest_trainMeans :
    geom_scaler.localized_normal cTest (geom_scaler.localized_mean cTrain) 1
      = some [[[2, 6, 1, 0, 1]], [[4, 4, 1, 0, 1]]] := by
  unfold geom_scaler.localized_normal
  rw [localized_mean_cTrain, centered_cTest_trainMeans, transform_one]

theorem neighborhoodRun_eval :
    neighborhoodRun cTrain cTest
      = some ([[[0, 0, 1, 0, 1]], [[0, 0, 1, 0, 1]]],
              [[[0, 0, 1, 0, 1]], [[0, 0, 1, 0, 1]]]) := by
  simp only [neighborhoodRun, npVarCoords_cTrain, localized_normal_cTrain,
    localized_normal_cTest_own, Option.bind_eq_bind, Option.some_bind,
    Option.pure_def]

theorem buildingTypeRun_eval_refit :
    buildingTypeRun none cTrain cTest = some (1, cTrain, cTest) := by
  unfold buildingTypeRun
  simp only [Option.getD_none, if_true, eq_self_iff_true, if_pos,
    scale_cTrain, Option.bind_eq_bind, Option.some_bind, transform_one,
    Option.pure_def]

theorem buildingTypeRun_eval_env :
    buildingTypeRun (some 1) cVar4 cVar4 = some (1, cVar4, cVar4) := by
  unfold buildingTypeRun
  rw [Option.getD_some, if_neg one_ne_zero]
  simp only [Option.bind_eq_bind, Option.some_bind, transform_one,
    Option.pure_def]

theorem archaeologyRun_eval_refit :
    archaeologyRun none cTrain cTest = some (1, cTrain, cTest) :=
  buildingTypeRun_eval_refit

theorem archaeologyRun_eval_env :
    archaeologyRun (some 1) cVar4 cVar4 = some (1, cVar4, cVar4) :=
  buildingTypeRun_eval_env

/-! ## Claim theorems -/

/-- C1 (amended): in `building_type.py` and `archaeology_convnet.py` a single
shared scale value is used verbatim for both the training and the test
transform, and it is the value refit once from the training batch whenever
the `GEOM_SCALE` environment value is absent or zero; in
`neighborhood_inhabitants.py` the shared variance used to transform the test
batch is the one computed once from the training batch, while the per-record
`localized_mean` is recomputed on the test batch before transforming it
(line 83). -/
theorem C1_scale_reuse :
    (∀ (e : Option ℚ) (train test : Batch) (s : ℚ) (trT teT : Batch),
        buildingTypeRun e train test = some (s, trT, teT) →
        geom_scaler.transform train s = some trT ∧
        geom_scaler.transform test s = some teT ∧
        (e.getD 0 = 0 → geom_scaler.scale train = some s)) ∧
    (∀ (e : Option ℚ) (train test : Batch) (s : ℚ) (trT teT : Batch),
        archaeologyRun e train test = some (s, trT, teT) →
        geom_scaler.transform train s = some trT ∧
        geom_scaler.transform test s = some teT ∧
        (e.getD 0 = 0 → geom_scaler.scale train = some s)) ∧
    (∀ (train test trN teN : Batch),
        neighborhoodRun train test = some (trN, teN) →
        geom_scaler.localized_normal train (geom_scaler.localized_mean train)
            (npVarCoords train) = some trN ∧
        geom_scaler.localized_normal test (geom_scaler.localized_mean test)
            (npVarCoords train) = some teN) := by
  refine ⟨?_, ?_, ?_⟩
  · intro e train test s trT teT h
    obtain ⟨h1, h2, h3, _⟩ := buildingTypeRun_inv e train test s trT teT h
    exact ⟨h1, h2, h3⟩
  · intro e train test s trT teT h
    obtain ⟨h1, h2, h3, _⟩ := archaeologyRun_inv e train test s trT teT h
    exact ⟨h1, h2, h3⟩
  · intro train test trN teN h
    exact neighborhoodRun_inv train test trN teN h

/-- C1 counterexample: on concrete batches `neighborhood_inhabitants.py`
transforms the test batch with per-record means recomputed from the test
batch, and the result differs from the transform with the training-derived
means — so the localized means are not "computed exactly once from the
designated training batch and reused verbatim". -/
theorem C1_counterexample :
    neighborhoodRun cTrain cTest
        = some ([[[0, 0, 1, 0, 1]], [[0, 0, 1, 0, 1]]],
                [[[0, 0, 1, 0, 1]], [[0, 0, 1, 0, 1]]]) ∧
    geom_scaler.localized_normal cTest (geom_scaler.localized_mean cTrain)
        (npVarCoords cTrain)
      = some [[[2, 6, 1, 0, 1]], [[4, 4, 1, 0, 1]]] ∧
    ([[[0, 0, 1, 0, 1]], [[0, 0, 1, 0, 1]]] : Batch)
      ≠ [[[2, 6, 1, 0, 1]], [[4, 4, 1, 0, 1]]] := by
  refine ⟨neighborhoodRun_eval, ?_, by decide⟩
  rw [npVarCoords_cTrain]
  exact localized_normal_cTest_trainMeans

/-- Witness for C1: concrete runs of all three script embeddings. -/
theorem C1_witness :
    (geom_scaler.transform cTrain 1 = some cTrain ∧
     geom_scaler.transform cTest 1 = some cTest ∧
     ((none : Option ℚ).getD 0 = 0 → geom_scaler.scale cTrain = some 1)) ∧
    (geom_scaler.transform cTrain 1 = some cTrain ∧
     geom_scaler.transform cTest 1 = some cTest ∧
     ((none : Option ℚ).getD 0 = 0 → geom_scaler.scale cTrain = some 1)) ∧
    (geom_scaler.localized_normal cTrain (geom_scaler.localized_mean cTrain)
        (npVarCoords cTrain) = some [[[0, 0, 1, 0, 1]], [[0, 0, 1, 0, 1]]] ∧
     geom_scaler.localized_normal cTest (geom_scaler.localized_mean cTest)
        (npVarCoords cTrain) = some [[[0, 0, 1, 0, 1]], [[0, 0, 1, 0, 1]]]) :=
  ⟨C1_scale_reuse.1 none cTrain cTest 1 cTrain cTest buildingTypeRun_eval_refit,
   C1_scale_reuse.2.1 none cTrain cTest 1 cTrain cTest archaeologyRun_eval_refit,
   C1_scale_reuse.2.2 cTrain cTest _ _ neighborhoodRun_eval⟩

/-- C2 (amended): the spec-modelled `geom_scaler.scale` is invariant under
appending all-zero padding rows to every record of a batch, but the variance
actually used by `neighborhood_inhabitants.py` (line 37,
`np.var(train_geoms[..., 0:2])`) ranges over all entries including padding
rows: appending a single padding row changes its value on a concrete
batch. -/
theorem C2_padding_and_variance :
    (∀ (b : Batch) (k : Nat),
        geom_scaler.scale (padRecords b k) = geom_scaler.scale b) ∧
    npVarCoords (padRecords [[[1, 3, 1, 0, 1]]] 1)
      ≠ npVarCoords [[[1, 3, 1, 0, 1]]] := by
  refine ⟨scale_padRecords, ?_⟩
  have hc1 : coordEntries ([[([1, 3, 1, 0, 1] : Vec)]] : Batch).flatten
      = [1, 3] := by decide
  have hc2 : coordEntries (padRecords [[[1, 3, 1, 0, 1]]] 1).flatten
      = [1, 0, 3, 0] := by decide
  have hv1 : popVar [1, 3] = 1 := by
    simp [popVar, qmean]
    norm_num
  have hv2 : popVar [1, 0, 3, 0] = 3 / 2 := by
    simp [popVar, qmean]
    norm_num
  unfold npVarCoords
  rw [hc1, hc2, hv1, hv2]
  norm_num

/-- C2 counterexample: a concrete batch with one real point (1, 3) and one
all-zero padding row.  The non-padding-only variance (the spec-modelled
`geom_scaler.scale`) is 1, but the variance computed at
`neighborhood_inhabitants.py` line 37 over all entries — the value
subsequently used to scale the batch — is 3/2: the padding row does bias
the estimate. -/
theorem C2_counterexample :
    geom_scaler.scale [[[1, 3, 1, 0, 1], padVec]] = some 1 ∧
    npVarCoords [[[1, 3, 1, 0, 1], padVec]] = 3 / 2 := by
  constructor
  · have h1 : geom_scaler.realVecs [[[1, 3, 1, 0, 1], padVec]]
        = [[1, 3, 1, 0, 1]] := by decide
    have h2 : coordEntries [([1, 3, 1, 0, 1] : Vec)] = [1, 3] := by decide
    have hv : popVar [1, 3] = 1 := by
      simp [popVar, qmean]
      norm_num
    unfold geom_scaler.scale
    rw [h1, h2, hv]
    simp
  · have hc : coordEntries ([[([1, 3, 1, 0, 1] : Vec), padVec]] : Batch).flatten
        = [1, 0, 3, 0] := by decide
    have hv : popVar [1, 0, 3, 0] = 3 / 2 := by
      simp [popVar, qmean]
      norm_num
    unfold npVarCoords
    rw [hc, hv]

/-- C10: in `building_type.py` and `archaeology_convnet.py`, an absent or
zero `GEOM_SCALE` environment value makes the scale be refit from the
training batch via the truthiness test `GEOM_SCALE or geom_scaler.scale(...)`
— so a zero environment scale never reaches `transform` — while any nonzero
environment value is passed to `transform` verbatim, with no validation
against the training data. -/
theorem C10_geom_scale_truthiness :
    (∀ (train test : Batch) (s : ℚ) (trT teT : Batch),
        buildingTypeRun none train test = some (s, trT, teT) →
        geom_scaler.scale train = some s) ∧
    (∀ (train test : Batch) (s : ℚ) (trT teT : Batch),
        buildingTypeRun (some 0) train test = some (s, trT, teT) →
        geom_scaler.scale train = some s) ∧
    (∀ (v : ℚ) (train test : Batch) (s : ℚ) (trT teT : Batch), v ≠ 0 →
        buildingTypeRun (some v) train test = some (s, trT, teT) →
        s = v ∧ geom_scaler.transform test v = some teT) ∧
    (∀ (train test : Batch) (s : ℚ) (trT teT : Batch),
        archaeologyRun none train test = some (s, trT, teT) →
        geom_scaler.scale train = some s) ∧
    (∀ (train test : Batch) (s : ℚ) (trT teT : Batch),
        archaeologyRun (some 0) train test = some (s, trT, teT) →
        geom_scaler.scale train = some s) ∧
    (∀ (v : ℚ) (train test : Batch) (s : ℚ) (trT teT : Batch), v ≠ 0 →
        archaeologyRun (some v) train test = some (s, trT, teT) →
        s = v ∧ geom_scaler.transform test v = some teT) := by
  refine ⟨?_, ?_, ?_, ?_, ?_, ?_⟩
  · intro train test s trT teT h
    exact (buildingTypeRun_inv none train test s trT teT h).2.2.1 rfl
  · intro train test s trT teT h
    exact (buildingTypeRun_inv (some 0) train test s trT teT h).2.2.1 rfl
  · intro v train test s trT teT hv h
    obtain ⟨_, h2, _, h4⟩ := buildingTypeRun_inv (some v) train test s trT teT h
    have hs : s = v := h4 hv
    subst hs
    exact ⟨rfl, h2⟩
  · intro train test s trT teT h
    exact (archaeologyRun_inv none train test s trT teT h).2.2.1 rfl
  · intro train test s trT teT h
    exact (archaeologyRun_inv (some 0) train test s trT teT h).2.2.1 rfl
  · intro v train test s trT teT hv h
    obtain ⟨_, h2, _, h4⟩ := archaeologyRun_inv (some v) train test s trT teT h
    have hs : s = v := h4 hv
    subst hs
    exact ⟨rfl, h2⟩

/-- Witness for C10: an unset environment refits the scale from the training
batch (value 1), and a nonzero environment value 1 is used verbatim on a
batch whose own training variance is 4. -/
theorem C10_witness :
    geom_scaler.scale cTrain = some 1 ∧
    ((1 : ℚ) = 1 ∧ geom_scaler.transform cVar4 1 = some cVar4) ∧
    geom_scaler.scale cTrain = some 1 ∧
    ((1 : ℚ) = 1 ∧ geom_scaler.transform cVar4 1 = some cVar4) ∧
    geom_scaler.scale cVar4 = some 4 :=
  ⟨C10_geom_scale_truthiness.1 cTrain cTest 1 cTrain cTest
      buildingTypeRun_eval_refit,
   C10_geom_scale_truthiness.2.2.1 1 cVar4 cVar4 1 cVar4 cVar4 one_ne_zero
      buildingTypeRun_eval_env,
   C10_geom_scale_truthiness.2.2.2.1 cTrain cTest 1 cTrain cTest
      archaeologyRun_eval_refit,
   C10_geom_scale_truthiness.2.2.2.2.2 1 cVar4 cVar4 1 cVar4 cVar4 one_ne_zero
      archaeologyRun_eval_env,
   scale_cVar4⟩

/-- C4: for every parsed WKT input whose real point count is at most
`max_points`, `vectorize_wkt` returns exactly `max_points` feature vectors,
and every trailing padding entry is all-zero in every channel. -/
theorem C4_exact_length_and_zero_padding (w : Wkt) (n : Nat)
    (h : GeoVectorizer.Wkt.pointCount w ≤ n) :
    ∃ out, GeoVectorizer.vectorize_wkt w n = some out ∧ out.length = n ∧
      ∀ v ∈ out.drop (GeoVectorizer.Wkt.pointCount w),
        v = List.replicate GEO_VECTOR_LEN 0 := by
  refine ⟨_, GeoVectorizer.vectorizeParts_eq_some _ n h, ?_, ?_⟩
  · rw [List.length_append, GeoVectorizer.encodeParts_length,
      List.length_replicate]
    have : GeoVectorizer.Wkt.pointCount w
        = ((GeoVectorizer.Wkt.allParts w).map List.length).sum := rfl
    omega
  · intro v hv
    have hlen : (GeoVectorizer.encodeParts (GeoVectorizer.Wkt.allParts w)).length
        = ((GeoVectorizer.Wkt.allParts w).map List.length).sum :=
      GeoVectorizer.encodeParts_length _
    have hdrop :
        (GeoVectorizer.encodeParts (GeoVectorizer.Wkt.allParts w)
            ++ List.replicate
              (n - ((GeoVectorizer.Wkt.allParts w).map List.length).sum)
              padVec).drop (GeoVectorizer.Wkt.pointCount w)
          = List.replicate
              (n - ((GeoVectorizer.Wkt.allParts w).map List.length).sum)
              padVec := by
      have : GeoVectorizer.Wkt.pointCount w
          = (GeoVectorizer.encodeParts (GeoVectorizer.Wkt.allParts w)).length := by
        rw [hlen]; rfl
      rw [this, List.drop_left]
    rw [hdrop] at hv
    exact List.eq_of_mem_replicate hv

/-- Witness for C4 at the spec example `POINT (1 2)` with `max_points = 4`. -/
theorem C4_witness :
    ∃ out, GeoVectorizer.vectorize_wkt (pointWkt 1 2 "POINT (1 2)") 4
        = some out ∧ out.length = 4 ∧
      ∀ v ∈ out.drop (GeoVectorizer.Wkt.pointCount (pointWkt 1 2 "POINT (1 2)")),
        v = List.replicate GEO_VECTOR_LEN 0 :=
  C4_exact_length_and_zero_padding (pointWkt 1 2 "POINT (1 2)") 4 (by decide)

/-- C5: `max_points` is the maximum point count over every WKT cell of the
provided collections (it bounds every cell and is attained), and a
successful pipeline run sizes every record of both output tensors with the
single shared `pipelineMaxPoints` value. -/
theorem C5_single_shared_max_points :
    (∀ (colls : List (List Wkt)) (w : Wkt), w ∈ colls.flatten →
        GeoVectorizer.Wkt.pointCount w ≤ GeoVectorizer.max_points colls) ∧
    (∀ colls : List (List Wkt), colls.flatten ≠ [] →
        ∃ w ∈ colls.flatten,
          GeoVectorizer.Wkt.pointCount w = GeoVectorizer.max_points colls) ∧
    (∀ (rows : List Row) (out : Archive), runVectorize rows = some out →
        (∀ rec ∈ out.input_geoms, rec.length = pipelineMaxPoints rows) ∧
        (∀ rec ∈ out.intersection, rec.length = pipelineMaxPoints rows)) := by
  refine ⟨?_, ?_, ?_⟩
  · intro colls w hw
    exact mem_le_foldl_max _ _
      (List.mem_map_of_mem GeoVectorizer.Wkt.pointCount hw) 0
  · intro colls hne
    rcases foldl_max_mem
        (colls.flatten.map GeoVectorizer.Wkt.pointCount) 0 with h | h
    · cases hfl : colls.flatten with
      | nil => exact absurd hfl hne
      | cons w t =>
        refine ⟨w, List.mem_cons_self w t, ?_⟩
        have hmem : GeoVectorizer.Wkt.pointCount w
            ∈ colls.flatten.map GeoVectorizer.Wkt.pointCount := by
          rw [hfl]
          exact List.mem_map_of_mem _ (List.mem_cons_self w t)
        have hle := mem_le_foldl_max
          (colls.flatten.map GeoVectorizer.Wkt.pointCount) _ hmem 0
        unfold GeoVectorizer.max_points
        omega
    · rcases List.mem_map.mp h with ⟨w, hw, hpc⟩
      exact ⟨w, hw, hpc⟩
  · intro rows out h
    obtain ⟨brtC, osmC, brtCrd, osmCrd, tv, iv, h1, h2, h3, h4, h5, h6,
      hig, hint, hcd, hgd, hbc, hoc, hcent, hcrd⟩ := runVectorize_inv rows out h
    constructor
    · intro rec2 hrec
      rw [hig] at hrec
      obtain ⟨r, _, hr⟩ :=
        forall_mem_of_forall₂ ((mapM_option_eq_some _ _ _).mp h5) rec2 hrec
      exact GeoVectorizer.vectorizeParts_length _ _ _ hr
    · intro rec2 hrec
      rw [hint] at hrec
      obtain ⟨r, _, hr⟩ :=
        forall_mem_of_forall₂ ((mapM_option_eq_some _ _ _).mp h6) rec2 hrec
      exact GeoVectorizer.vectorizeParts_length _ _ _ hr

/-- Witness for C5, including the spec example
`max_points(["POINT(0 0)"], ["LINESTRING(0 0,1 1,2 2)"]) = 3`. -/
theorem C5_witness :
    GeoVectorizer.Wkt.pointCount lineWkt3
        ≤ GeoVectorizer.max_points [[pointWkt 0 0 "POINT (0 0)"], [lineWkt3]] ∧
    (∃ w ∈ ([[pointWkt 0 0 "POINT (0 0)"], [lineWkt3]] :
          List (List Wkt)).flatten,
        GeoVectorizer.Wkt.pointCount w
          = GeoVectorizer.max_points [[pointWkt 0 0 "POINT (0 0)"], [lineWkt3]]) ∧
    ((∀ rec2 ∈ archA.input_geoms, rec2.length = pipelineMaxPoints [rowA]) ∧
     (∀ rec2 ∈ archA.intersection, rec2.length = pipelineMaxPoints [rowA])) ∧
    GeoVectorizer.max_points [[pointWkt 0 0 "POINT (0 0)"], [lineWkt3]] = 3 :=
  ⟨C5_single_shared_max_points.1 [[pointWkt 0 0 "POINT (0 0)"], [lineWkt3]]
      lineWkt3 (by decide),
   C5_single_shared_max_points.2.1 [[pointWkt 0 0 "POINT (0 0)"], [lineWkt3]]
      (by decide),
   C5_single_shared_max_points.2.2 [rowA] archA (by decide),
   by decide⟩

/-- C6 (amended): the corpus-preparation step drops every row failing the
raw-text length check before vectorization and passes every retained row to
vectorization; but the raw-text check does not prevent vectorization length
failures — a retained pair whose combined point count exceeds the scanned
per-geometry maximum still fails (see the counterexample). -/
theorem C6_length_filter :
    (∀ rows : List Row,
        runVectorize (rows.filter lengthOK) = runVectorize rows) ∧
    (∀ (rows : List Row) (r : Row), lengthOK r = false →
        runVectorize (rows ++ [r]) = runVectorize rows) ∧
    (∀ (rows : List Row) (out : Archive), runVectorize rows = some out →
        out.input_geoms.length = (rows.filter lengthOK).length) := by
  have hff : ∀ rows : List Row,
      (rows.filter lengthOK).filter lengthOK = rows.filter lengthOK := by
    intro rows
    rw [List.filter_filter]
    apply List.filter_congr
    intro a _
    rw [Bool.and_self]
  refine ⟨?_, ?_, ?_⟩
  · intro rows
    unfold runVectorize pipelineMaxPoints
    rw [hff]
  · intro rows r hr
    have hfa : (rows ++ [r]).filter lengthOK = rows.filter lengthOK := by
      rw [List.filter_append]
      simp [hr]
    unfold runVectorize pipelineMaxPoints
    rw [hfa]
  · intro rows out h
    obtain ⟨brtC, osmC, brtCrd, osmCrd, tv, iv, h1, h2, h3, h4, h5, h6,
      hig, hint, hcd, hgd, hbc, hoc, hcent, hcrd⟩ := runVectorize_inv rows out h
    rw [hig]
    exact mapM_option_length h5

/-- C6 counterexample: `rowBad` passes the raw-text length check, yet the
pipeline on `[rowBad]` fails — the scanned per-geometry maximum is 3 while
the joined pair holds 6 points, so the spec-modelled `vectorize_wkt` raises
its length error.  The length filter therefore does not ensure that no
`LengthExceededError` is surfaced by this step. -/
theorem C6_counterexample :
    lengthOK rowBad = true ∧ runVectorize [rowBad] = none := by decide

set_option maxRecDepth 10000 in
/-- Witness for C6 on concrete rows. -/
theorem C6_witness :
    runVectorize ([rowA].filter lengthOK) = runVectorize [rowA] ∧
    runVectorize ([rowA] ++ [rowLong]) = runVectorize [rowA] ∧
    archA.input_geoms.length = ([rowA].filter lengthOK).length :=
  ⟨C6_length_filter.1 [rowA],
   C6_length_filter.2.1 [rowA] rowLong (by decide),
   C6_length_filter.2.2 [rowA] archA (by decide)⟩

/-- C7: in a successful pipeline run the persisted `centroid_distance` and
`geom_distance` arrays hold one `[value, 0]` row per record — shape
(num_records, 1, 2) with the raw CSV value first and exactly 0 second. -/
theorem C7_distance_fields_layout :
    ∀ (rows : List Row) (out : Archive), runVectorize rows = some out →
      out.centroid_distance
          = (rows.filter lengthOK).map (fun r => [[r.centroidDist, 0]]) ∧
      out.geom_distance
          = (rows.filter lengthOK).map (fun r => [[r.geomDist, 0]]) ∧
      (∀ rec2 ∈ out.centroid_distance,
          rec2.length = 1 ∧ ∀ inner ∈ rec2, inner.length = 2) ∧
      (∀ rec2 ∈ out.geom_distance,
          rec2.length = 1 ∧ ∀ inner ∈ rec2, inner.length = 2) := by
  have hshape : ∀ (xs : List ℚ),
      insertZeroAxis2 (reshape_n11 xs) = xs.map (fun v => [[v, 0]]) := by
    intro xs
    unfold insertZeroAxis2 reshape_n11
    rw [List.map_map]
    rfl
  intro rows out h
  obtain ⟨brtC, osmC, brtCrd, osmCrd, tv, iv, h1, h2, h3, h4, h5, h6,
    hig, hint, hcd, hgd, hbc, hoc, hcent, hcrd⟩ := runVectorize_inv rows out h
  have hcd2 : out.centroid_distance
      = (rows.filter lengthOK).map (fun r => [[r.centroidDist, 0]]) := by
    rw [hcd, hshape, List.map_map]
    rfl
  have hgd2 : out.geom_distance
      = (rows.filter lengthOK).map (fun r => [[r.geomDist, 0]]) := by
    rw [hgd, hshape, List.map_map]
    rfl
  refine ⟨hcd2, hgd2, ?_, ?_⟩
  · intro rec2 hrec
    rw [hcd2] at hrec
    rcases List.mem_map.mp hrec with ⟨r, _, hv⟩
    subst hv
    exact ⟨rfl, by intro inner hin; rcases List.mem_singleton.mp hin with h0; subst h0; rfl⟩
  · intro rec2 hrec
    rw [hgd2] at hrec
    rcases List.mem_map.mp hrec with ⟨r, _, hv⟩
    subst hv
    exact ⟨rfl, by intro inner hin; rcases List.mem_singleton.mp hin with h0; subst h0; rfl⟩

/-- Witness for C7 at a concrete pipeline run. -/
theorem C7_witness :
    archA.centroid_distance
        = ([rowA].filter lengthOK).map (fun r => [[r.centroidDist, 0]]) ∧
    archA.geom_distance
        = ([rowA].filter lengthOK).map (fun r => [[r.geomDist, 0]]) ∧
    (∀ rec2 ∈ archA.centroid_distance,
        rec2.length = 1 ∧ ∀ inner ∈ rec2, inner.length = 2) ∧
    (∀ rec2 ∈ archA.geom_distance,
        rec2.length = 1 ∧ ∀ inner ∈ rec2, inner.length = 2) :=
  C7_distance_fields_layout [rowA] archA (by decide)

/-- C8: the pipeline transformation is deterministic and purely functional —
the in-place tensor-filling loops compute the direct per-record
vectorization lists, and two runs on equal loaded rows produce
element-for-element equal archives. -/
theorem C8_deterministic_pipeline :
    (∀ rows : List Row, runVectorize rows = runVectorizeDirect rows) ∧
    (∀ rows1 rows2 : List Row, rows1 = rows2 →
        runVectorize rows1 = runVectorize rows2) :=
  ⟨runVectorize_eq_direct, fun _ _ h => by rw [h]⟩

/-- Witness for C8 at a concrete run. -/
theorem C8_witness :
    runVectorize [rowA] = runVectorizeDirect [rowA] ∧
    runVectorize [rowA] = runVectorize [rowA] :=
  ⟨C8_deterministic_pipeline.1 [rowA],
   C8_deterministic_pipeline.2 [rowA] [rowA] rfl⟩

set_option maxRecDepth 4000 in
/-- C9: the archive is independent of the `intersection_wkt` column — any
rewrite of that column leaves the whole output unchanged — and in a
successful run the `intersection` array is exactly the vectorization of the
semicolon-joined pair `brt_wkt + ';' + osm_wkt` of each retained row. -/
theorem C9_intersection_is_joined_pair :
    (∀ (rows : List Row) (f : Row → Wkt),
        runVectorize (rows.map (fun r => { r with intersectionWkt := f r }))
          = runVectorize rows) ∧
    (∀ (rows : List Row) (out : Archive), runVectorize rows = some out →
        (rows.filter lengthOK).mapM
            (fun r => GeoVectorizer.vectorize_wkt
              (GeoVectorizer.joinWkt r.brt r.osm) (pipelineMaxPoints rows))
          = some out.intersection) := by
  constructor
  · intro rows f
    have hfilter :
        (rows.map (fun r => { r with intersectionWkt := f r })).filter lengthOK
          = (rows.filter lengthOK).map
              (fun r => { r with intersectionWkt := f r }) := by
      rw [List.filter_map]
      rfl
    have hmp :
        pipelineMaxPoints (rows.map (fun r => { r with intersectionWkt := f r }))
          = pipelineMaxPoints rows := by
      unfold pipelineMaxPoints
      rw [hfilter, List.map_map, List.map_map]
      rfl
    simp only [runVectorize]
    rw [hfilter, hmp]
    simp only [mapM_option_map, List.map_map, List.length_map]
    rfl
  · intro rows out h
    obtain ⟨brtC, osmC, brtCrd, osmCrd, tv, iv, h1, h2, h3, h4, h5, h6,
      hig, hint, hcd, hgd, hbc, hoc, hcent, hcrd⟩ := runVectorize_inv rows out h
    rw [hint]
    exact h6

/-- Witness for C9 at a concrete run. -/
theorem C9_witness :
    runVectorize ([rowA].map (fun r => { r with intersectionWkt := lineWkt3 }))
        = runVectorize [rowA] ∧
    ([rowA].filter lengthOK).mapM
        (fun r => GeoVectorizer.vectorize_wkt
          (GeoVectorizer.joinWkt r.brt r.osm) (pipelineMaxPoints [rowA]))
      = some archA.intersection :=
  ⟨C9_intersection_is_joined_pair.1 [rowA] (fun _ => lineWkt3),
   C9_intersection_is_joined_pair.2 [rowA] archA (by decide)⟩

/-- C3: every vectorized record has exactly one `full_stop = 1` entry and it
is the last real (non-padding) entry; for a record formed by concatenating
two geometries (`vectorize_two_wkts`, and the two-centroid records built by
`vectorize.py` lines 47–56) the internal boundary carries `stop = 1` and
`full_stop = 0`, and only the true end of the second geometry carries
`full_stop = 1`. -/
theorem C3_unique_full_stop :
    (∀ (w : Wkt) (n : Nat), GeoVectorizer.Wkt.WF w →
      GeoVectorizer.Wkt.pointCount w ≤ n →
      ∃ rv, GeoVectorizer.vectorize_wkt w n
          = some (rv ++ List.replicate (n - GeoVectorizer.Wkt.pointCount w)
              padVec) ∧
        rv.length = GeoVectorizer.Wkt.pointCount w ∧
        countFS rv = 1 ∧
        (∃ v, rv.getLast? = some v ∧ fullStopFlag v = 1 ∧ renderFlag v = 1) ∧
        (∀ v ∈ rv, renderFlag v = 1) ∧
        countFS (List.replicate (n - GeoVectorizer.Wkt.pointCount w) padVec)
          = 0) ∧
    (∀ (a b : Wkt) (n : Nat), GeoVectorizer.Wkt.WF a →
      GeoVectorizer.Wkt.WF b →
      GeoVectorizer.Wkt.pointCount a + GeoVectorizer.Wkt.pointCount b ≤ n →
      ∃ va vb, GeoVectorizer.vectorize_two_wkts a b n
          = some (va ++ vb
              ++ List.replicate
                (n - (GeoVectorizer.Wkt.pointCount a
                  + GeoVectorizer.Wkt.pointCount b)) padVec) ∧
        va.length = GeoVectorizer.Wkt.pointCount a ∧
        vb.length = GeoVectorizer.Wkt.pointCount b ∧
        (∃ v, va.getLast? = some v ∧ stopFlag v = 1 ∧ fullStopFlag v = 0 ∧
          renderFlag v = 1) ∧
        (∃ v, vb.getLast? = some v ∧ fullStopFlag v = 1 ∧ renderFlag v = 1) ∧
        countFS va = 0 ∧ countFS vb = 1) ∧
    (∀ (rows : List Row) (out : Archive), runVectorize rows = some out →
      (∀ r ∈ rows.filter lengthOK,
        GeoVectorizer.Wkt.WF r.brtCentroid ∧
        GeoVectorizer.Wkt.WF r.osmCentroid) →
      ∀ rec2 ∈ out.centroids, ∃ v0 v1,
        rec2 = [v0, v1] ∧ stopFlag v0 = 1 ∧ fullStopFlag v0 = 0 ∧
        renderFlag v0 = 1 ∧ fullStopFlag v1 = 1 ∧ renderFlag v1 = 1 ∧
        countFS rec2 = 1) := by
  refine ⟨?_, ?_, ?_⟩
  · intro w n hwf hle
    refine ⟨GeoVectorizer.encodeParts (GeoVectorizer.Wkt.allParts w),
      GeoVectorizer.vectorizeParts_eq_some _ n hle,
      GeoVectorizer.encodeParts_length _,
      GeoVectorizer.countFS_encodeParts _ hwf.1 hwf.2, ?_,
      GeoVectorizer.renderFlag_mem_encodeParts _,
      GeoVectorizer.countFS_replicate_pad _⟩
    obtain ⟨q, hq⟩ := GeoVectorizer.encodeParts_getLast? _ hwf.1 hwf.2
    exact ⟨GeoVectorizer.encodePoint q 0 1, hq, rfl, rfl⟩
  · intro a b n hwa hwb hle
    have hsum : ((GeoVectorizer.Wkt.allParts a
          ++ GeoVectorizer.Wkt.allParts b).map List.length).sum
        = GeoVectorizer.Wkt.pointCount a + GeoVectorizer.Wkt.pointCount b := by
      rw [List.map_append, List.sum_append]
      rfl
    have h0 := GeoVectorizer.vectorizeParts_eq_some
      (GeoVectorizer.Wkt.allParts a ++ GeoVectorizer.Wkt.allParts b) n
      (by rw [hsum]; exact hle)
    rw [GeoVectorizer.encodeParts_append _ _ hwb.1, hsum] at h0
    refine ⟨GeoVectorizer.encodePartsNF (GeoVectorizer.Wkt.allParts a),
      GeoVectorizer.encodeParts (GeoVectorizer.Wkt.allParts b),
      h0,
      GeoVectorizer.encodePartsNF_length _,
      GeoVectorizer.encodeParts_length _, ?_, ?_,
      GeoVectorizer.countFS_encodePartsNF _,
      GeoVectorizer.countFS_encodeParts _ hwb.1 hwb.2⟩
    · obtain ⟨q, hq⟩ := GeoVectorizer.encodePartsNF_getLast? _ hwa.1 hwa.2
      exact ⟨GeoVectorizer.encodePoint q 1 0, hq, rfl, rfl, rfl⟩
    · obtain ⟨q, hq⟩ := GeoVectorizer.encodeParts_getLast? _ hwb.1 hwb.2
      exact ⟨GeoVectorizer.encodePoint q 0 1, hq, rfl, rfl⟩
  · intro rows out h hwf rec2 hrec
    obtain ⟨brtC, osmC, brtCrd, osmCrd, tv, iv, h1, h2, h3, h4, h5, h6,
      hig, hint, hcd, hgd, hbc, hoc, hcent, hcrd⟩ := runVectorize_inv rows out h
    rw [hcent] at hrec
    unfold fixFirstBits at hrec
    rcases List.mem_map.mp hrec with ⟨r1, hr1, hr2⟩
    rcases List.mem_map.mp hr1 with ⟨r0, hr0, hr01⟩
    rcases List.mem_map.mp hr0 with ⟨pr, hpr, hpr0⟩
    obtain ⟨hpb, hpo⟩ := List.of_mem_zip hpr
    obtain ⟨ra, hra, hva⟩ :=
      forall_mem_of_forall₂ ((mapM_option_eq_some _ _ _).mp h1) pr.1 hpb
    obtain ⟨rb, hrb, hvb⟩ :=
      forall_mem_of_forall₂ ((mapM_option_eq_some _ _ _).mp h2) pr.2 hpo
    have hwa : GeoVectorizer.Wkt.WF ra.brtCentroid := (hwf ra hra).1
    have hwb : GeoVectorizer.Wkt.WF rb.osmCentroid := (hwf rb hrb).2
    have hca : GeoVectorizer.Wkt.pointCount ra.brtCentroid = 1 := by
      have hle : GeoVectorizer.Wkt.pointCount ra.brtCentroid ≤ 1 :=
        vectorizeParts_le _ _ _ hva
      have hge := WF_pointCount_pos _ hwa
      omega
    have hcb : GeoVectorizer.Wkt.pointCount rb.osmCentroid = 1 := by
      have hle : GeoVectorizer.Wkt.pointCount rb.osmCentroid ≤ 1 :=
        vectorizeParts_le _ _ _ hvb
      have hge := WF_pointCount_pos _ hwb
      omega
    obtain ⟨qa, hqa⟩ := encodeParts_single_point
      (GeoVectorizer.Wkt.allParts ra.brtCentroid) hwa.2 hca
    obtain ⟨qb, hqb⟩ := encodeParts_single_point
      (GeoVectorizer.Wkt.allParts rb.osmCentroid) hwb.2 hcb
    have hsa := GeoVectorizer.vectorizeParts_eq_some
      (GeoVectorizer.Wkt.allParts ra.brtCentroid) 1 (le_of_eq hca)
    have hsb := GeoVectorizer.vectorizeParts_eq_some
      (GeoVectorizer.Wkt.allParts rb.osmCentroid) 1 (le_of_eq hcb)
    have hrepa : List.replicate
        (1 - ((GeoVectorizer.Wkt.allParts ra.brtCentroid).map
          List.length).sum) padVec = ([] : List Vec) := by
      have hca2 : ((GeoVectorizer.Wkt.allParts ra.brtCentroid).map
          List.length).sum = 1 := hca
      rw [hca2]
      rfl
    have hrepb : List.replicate
        (1 - ((GeoVectorizer.Wkt.allParts rb.osmCentroid).map
          List.length).sum) padVec = ([] : List Vec) := by
      have hcb2 : ((GeoVectorizer.Wkt.allParts rb.osmCentroid).map
          List.length).sum = 1 := hcb
      rw [hcb2]
      rfl
    rw [hqa, hrepa, List.append_nil] at hsa
    rw [hqb, hrepb, List.append_nil] at hsb
    have hpr1 : pr.1 = [GeoVectorizer.encodePoint qa 0 1] :=
      Option.some.inj (hva.symm.trans hsa)
    have hpr2 : pr.2 = [GeoVectorizer.encodePoint qb 0 1] :=
      Option.some.inj (hvb.symm.trans hsb)
    refine ⟨[qa.1, qa.2, 1, 1, 0], [qb.1, qb.2, 1, 0, 1], ?_, rfl, rfl, rfl,
      rfl, rfl, ?_⟩
    · rw [← hr2, ← hr01, ← hpr0, hpr1, hpr2]
      rfl
    · have hrec2 : rec2 = [[qa.1, qa.2, 1, 1, 0], [qb.1, qb.2, 1, 0, 1]] := by
        rw [← hr2, ← hr01, ← hpr0, hpr1, hpr2]
        rfl
      rw [hrec2]
      exact countFS_pair _ _ rfl rfl

/-- Witness for C3: a single point, a concatenated pair of linestrings, and
a concrete pipeline run with point centroids. -/
theorem C3_witness :
    (∃ rv, GeoVectorizer.vectorize_wkt (pointWkt 1 2 "POINT (1 2)") 4
        = some (rv ++ List.replicate
            (4 - GeoVectorizer.Wkt.pointCount (pointWkt 1 2 "POINT (1 2)"))
            padVec) ∧
      rv.length = GeoVectorizer.Wkt.pointCount (pointWkt 1 2 "POINT (1 2)") ∧
      countFS rv = 1 ∧
      (∃ v, rv.getLast? = some v ∧ fullStopFlag v = 1 ∧ renderFlag v = 1) ∧
      (∀ v ∈ rv, renderFlag v = 1) ∧
      countFS (List.replicate
          (4 - GeoVectorizer.Wkt.pointCount (pointWkt 1 2 "POINT (1 2)"))
          padVec) = 0) ∧
    (∃ va vb, GeoVectorizer.vectorize_two_wkts lineWkt3 lineWkt3b 7
        = some (va ++ vb
            ++ List.replicate
              (7 - (GeoVectorizer.Wkt.pointCount lineWkt3
                + GeoVectorizer.Wkt.pointCount lineWkt3b)) padVec) ∧
      va.length = GeoVectorizer.Wkt.pointCount lineWkt3 ∧
      vb.length = GeoVectorizer.Wkt.pointCount lineWkt3b ∧
      (∃ v, va.getLast? = some v ∧ stopFlag v = 1 ∧ fullStopFlag v = 0 ∧
        renderFlag v = 1) ∧
      (∃ v, vb.getLast? = some v ∧ fullStopFlag v = 1 ∧ renderFlag v = 1) ∧
      countFS va = 0 ∧ countFS vb = 1) ∧
    (∀ rec2 ∈ archA.centroids, ∃ v0 v1,
      rec2 = [v0, v1] ∧ stopFlag v0 = 1 ∧ fullStopFlag v0 = 0 ∧
      renderFlag v0 = 1 ∧ fullStopFlag v1 = 1 ∧ renderFlag v1 = 1 ∧
      countFS rec2 = 1) :=
  ⟨C3_unique_full_stop.1 (pointWkt 1 2 "POINT (1 2)") 4 (by decide) (by decide),
   C3_unique_full_stop.2.1 lineWkt3 lineWkt3b 7 (by decide) (by decide)
      (by decide),
   C3_unique_full_stop.2.2 [rowA] archA (by decide) (by decide)⟩

end GeometryLearning
